import Mathlib

/-!
Shallow embedding of the Schema-Mapping & Record-Reconciliation Pipeline of the
Training-and-placement-portal repository, together with proofs settling the
frozen claims about it.

The embedded source lives in `src/lib/data-pipeline/processor.ts`
(`DataProcessor`: schema matching, similarity scoring, merging, conflict
detection) and `src/lib/data-mapping/data-mapper.ts` (`DataMapper`: field
coercion/validation, required-field checks, transfer to the student table).

Modelling conventions, used throughout:
* JavaScript runtime values are modelled by the inductive type `Value`
  (null, string, number, boolean, array).  Numbers are rationals: the
  program only produces numbers through literals and `parseFloat`, so no
  claim exercises floating-point rounding, `NaN` or `Infinity` values
  stored in records (a failed `parseFloat` is modelled as `Option.none`).
* A JavaScript object holding record data is an association list
  `List (String × Value)`; the absent key / `undefined` distinction is
  `Option Value`.  Property reads take the first matching entry and property
  writes update the first matching entry in place or append, matching JS
  object key order semantics.
* `uuidv4()` and `new Date().toISOString()` are environment inputs; functions
  that consume them take them as explicit parameters (`ids`, `now`).  The
  opaque `id` / `timestamp` / `userId` fields of error, warning and audit
  objects are environment-generated noise and are not carried in the model.
-/

namespace TPPortal

/-- JavaScript values as they occur in this pipeline's records: `null`,
strings, numbers (rationals, see the header comment), booleans and arrays. -/
inductive Value : Type where
  | vnull : Value
  | vstr (s : String) : Value
  | vnum (q : ℚ) : Value
  | vbool (b : Bool) : Value
  | varr (elems : List Value) : Value
deriving Repr

/-- Structural (syntactic) equality test on `Value`, by mutual recursion with
list equality. -/
def Value.beqVal : Value → Value → Bool
  | .vnull, .vnull => true
  | .vstr a, .vstr b => a == b
  | .vnum a, .vnum b => a == b
  | .vbool a, .vbool b => a == b
  | .varr a, .varr b => beqList a b
  | _, _ => false
where
  /-- Elementwise structural equality of value lists. -/
  beqList : List Value → List Value → Bool
    | [], [] => true
    | x :: xs, y :: ys => Value.beqVal x y && beqList xs ys
    | _, _ => false

instance : BEq Value := ⟨Value.beqVal⟩

/-- `Value.beqVal` decides propositional equality. -/
theorem Value.beqVal_iff : ∀ a b : Value, Value.beqVal a b = true ↔ a = b := by
  have main : ∀ a b : Value, (Value.beqVal a b = true ↔ a = b) := by
    intro a
    induction a using Value.rec
      (motive_2 := fun l => ∀ m : List Value, (Value.beqVal.beqList l m = true ↔ l = m)) with
    | vnull => intro b; cases b <;> simp [Value.beqVal]
    | vstr s => intro b; cases b <;> simp [Value.beqVal]
    | vnum q => intro b; cases b <;> simp [Value.beqVal]
    | vbool v => intro b; cases b <;> simp [Value.beqVal]
    | varr l ih =>
      intro b
      cases b <;> simp [Value.beqVal]
      exact ih _
    | nil =>
      rename_i m
      cases m <;> simp [Value.beqVal.beqList]
    | cons x xs ihx ihxs =>
      rename_i m
      cases m with
      | nil => simp [Value.beqVal.beqList]
      | cons y ys =>
        simp [Value.beqVal.beqList, ihx y, ihxs ys]
  exact main

instance : DecidableEq Value := fun a b =>
  decidable_of_iff (Value.beqVal a b = true) (Value.beqVal_iff a b)

/-- `Array.isArray` test. -/
def Value.isArr : Value → Bool
  | .varr _ => true
  | _ => false

/-- JavaScript truthiness of a present value: `false`, `0`, `''` and `null`
are falsy (so is `undefined`, handled at the `Option` level); arrays and all
other values are truthy. -/
def Value.truthy : Value → Bool
  | .vnull => false
  | .vstr s => s ≠ ""
  | .vnum q => q ≠ 0
  | .vbool b => b
  | .varr _ => true

/-- Falsiness (`!x`) of a possibly-absent property value: an absent key reads
as `undefined`, which is falsy. -/
def falsyOpt : Option Value → Bool
  | none => true
  | some v => ! v.truthy

/-- The pipeline's non-emptiness test `v !== null && v !== undefined && v !== ''`
for a present value (absence, i.e. `undefined`, is handled at the `Option`
level by the caller). -/
def nonEmptyJS (v : Value) : Bool :=
  !(v == Value.vnull) && !(v == Value.vstr "")

/-- JavaScript strict equality `===` (equally: `Set`/`Map` SameValueZero
equality) as it behaves at this pipeline's comparison sites: on primitives it
is structural equality; two arrays compare equal only when they are the same
heap reference.  Every array this pipeline compares (record field values from
distinct parsed rows, elements produced by `String.split` or spreads) is a
fresh allocation, with no aliasing between the two operands, so array–array
comparisons here are always `false`.  `NaN`/`±0` subtleties do not arise (see
the header comment on numbers). -/
def jsEq (a b : Value) : Bool :=
  a == b && ! a.isArr

/-- A record (JS object used as a data row / student record): association list
keyed by property name, in property-creation order. -/
abbrev RecordV := List (String × Value)

/-- Property read `r[k]`: first entry with the key; `none` is `undefined`. -/
def getVal (r : RecordV) (k : String) : Option Value :=
  match r with
  | [] => none
  | (k', v) :: rest => if k' = k then some v else getVal rest k

/-- Property write `r[k] = v`: overwrites the first entry holding `k`, or
appends a new entry (JS objects keep insertion order and do not duplicate
keys). -/
def setVal (r : RecordV) (k : String) (v : Value) : RecordV :=
  match r with
  | [] => [(k, v)]
  | (k', v') :: rest => if k' = k then (k', v) :: rest else (k', v') :: setVal rest k v

/-- `Object.keys r`. -/
def recKeys (r : RecordV) : List String := r.map (·.1)

/-- `[...new Set l]`: deduplication keeping first occurrences, with `Set`'s
SameValueZero element equality (`jsEq`). -/
def jsDedupAux (acc : List Value) (l : List Value) : List Value :=
  match l with
  | [] => acc
  | x :: xs => if acc.any (fun y => jsEq y x) then jsDedupAux acc xs else jsDedupAux (acc ++ [x]) xs

/-- `[...new Set l]` with an empty initial set. -/
def jsDedup (l : List Value) : List Value := jsDedupAux [] l

/-- The three merge strategies of `DataProcessor.mergeRecords`. -/
inductive MergeStrategy : Type where
  | overwrite
  | preserve
  | smart
deriving DecidableEq, Repr

/-- `Array.isArray` on a possibly-absent value (`Array.isArray(undefined)`
is `false`). -/
def isArrOpt : Option Value → Bool
  | some v => v.isArr
  | none => false

/-- The element list of an array value (`[]` for non-arrays; only read
behind an `isArrOpt` test). -/
def elemsOrNil : Option Value → List Value
  | some (Value.varr l) => l
  | _ => []

/-- One step of the `smart` branch of `DataProcessor.mergeRecords`
(processor.ts lines 379-391): for the incoming entry `(k, v)`,
`if (!merged[k] || (v !== null && v !== undefined && v !== '')) { if
(Array.isArray(merged[k]) && Array.isArray(v)) merged[k] = [...new
Set([...merged[k], ...v])]; else merged[k] = v; }`. -/
def smartStep (m : RecordV) (kv : String × Value) : RecordV :=
  if falsyOpt (getVal m kv.1) || nonEmptyJS kv.2 then
    if isArrOpt (getVal m kv.1) && kv.2.isArr then
      setVal m kv.1 (Value.varr (jsDedup (elemsOrNil (getVal m kv.1) ++ elemsOrNil (some kv.2))))
    else setVal m kv.1 kv.2
  else m

/-- The value a single `smart` step leaves at its own key, as a function of
the currently-held value and the incoming value (the value-level content of
`smartStep`): keep the held value when it is truthy and the incoming value
is empty, take the `Set`-deduplicated concatenation when both are arrays,
and otherwise take the incoming value. -/
def smartValueSpec (ex : Option Value) (v : Value) : Option Value :=
  if falsyOpt ex || nonEmptyJS v then
    if isArrOpt ex && v.isArr then
      some (Value.varr (jsDedup (elemsOrNil ex ++ elemsOrNil (some v))))
    else some v
  else ex

/-- `DataProcessor.mergeRecords` (processor.ts lines 369-395).  `overwrite` is
`{...existing, ...incoming}`, `preserve` is `{...incoming, ...existing}`,
`smart` starts from a copy of `existing` and folds `smartStep` over the
incoming entries (`Object.entries(incoming).forEach`). -/
def mergeRecords (existing incoming : RecordV) : MergeStrategy → RecordV
  | .overwrite => incoming.foldl (fun m kv => setVal m kv.1 kv.2) existing
  | .preserve => existing.foldl (fun m kv => setVal m kv.1 kv.2) incoming
  | .smart => incoming.foldl smartStep existing

/-- A detected field conflict: field name, existing value, incoming value. -/
structure Conflict : Type where
  field : String
  existingValue : Value
  incomingValue : Value
deriving DecidableEq, Repr

/-- `DataProcessor.detectConflicts` (processor.ts lines 397-420): for every
key of the incoming record, flag a conflict when both sides hold a value that
is not `undefined`, `null` or `''` and `existing[key] !== incoming[key]`
(strict equality — see `jsEq`). -/
def detectConflicts (existing incoming : RecordV) : List Conflict :=
  (recKeys incoming).foldl
    (fun acc k =>
      match getVal existing k, getVal incoming k with
      | some ve, some vi =>
          if nonEmptyJS ve && nonEmptyJS vi && !(jsEq ve vi) then
            acc ++ [{ field := k, existingValue := ve, incomingValue := vi }]
          else acc
      | _, _ => acc)
    []

/-! ### Similarity Scorer and Schema Matcher (`DataProcessor`, processor.ts) -/

/-- Levenshtein edit distance with unit insert/delete/substitute costs.
`DataProcessor.editDistance` (processor.ts lines 273-292) fills the standard
dynamic-programming table for exactly this recurrence
(`matrix[j][i] = min(matrix[j][i-1] + 1, matrix[j-1][i] + 1,
matrix[j-1][i-1] + substitutionCost)` with border `matrix[0][i] = i`,
`matrix[j][0] = j`); the table is memoisation of the recurrence, so the
embedded function returns the same number the table's bottom-right cell
holds.  The `fuel` argument is only a structural-termination device: it
strictly exceeds the recursion depth whenever it bounds the total length,
and `editDistance` supplies such a bound. -/
def editDistanceGo : Nat → List Char → List Char → Nat
  | _, [], ys => ys.length
  | _, x :: xs, [] => (x :: xs).length
  | 0, _ :: _, _ :: _ => 0
  | fuel + 1, x :: xs, y :: ys =>
      min (min (editDistanceGo fuel (x :: xs) ys + 1) (editDistanceGo fuel xs (y :: ys) + 1))
        (editDistanceGo fuel xs ys + (if x = y then 0 else 1))

/-- The edit distance itself; `xs.length + ys.length` steps always suffice
(see `editDistance_cons_cons` for the recurrence the fuel realises). -/
def editDistance (xs ys : List Char) : Nat :=
  editDistanceGo (xs.length + ys.length) xs ys

/-- `DataProcessor.calculateSimilarity` (processor.ts lines 264-271): order
the two strings by length, return `1.0` when the longer one is empty, else
`(longer.length - editDistance(longer, shorter)) / longer.length` as an exact
rational. -/
def calculateSimilarity (str1 str2 : String) : ℚ :=
  let longer := if str1.length > str2.length then str1 else str2
  let shorter := if str1.length > str2.length then str2 else str1
  if longer.length = 0 then 1
  else ((longer.length : ℚ) - (editDistance longer.toList shorter.toList : ℚ)) / (longer.length : ℚ)

/-- The known canonical columns, in the insertion order of the
`knownColumns` set (processor.ts lines 103-106); `Array.from` over the set
iterates in this order. -/
def knownColumnsList : List String :=
  ["PRN", "name", "email", "department", "year", "cgpa", "phone",
   "skills", "certifications", "projects", "internships"]

/-- `String.prototype.toLowerCase` for the ASCII data this pipeline
handles: lower-case each character. -/
def toLowerJS (s : String) : String :=
  String.mk (s.toList.map Char.toLower)

/-- Header normalisation in `suggestColumnMapping`:
`column.toLowerCase().replace(/[^a-z0-9]/g, '')`. -/
def normalizeHeader (column : String) : String :=
  String.mk ((toLowerJS column).toList.filter
    (fun c => ('a' ≤ c ∧ c ≤ 'z') ∨ ('0' ≤ c ∧ c ≤ '9')))

/-- First maximum of a scored candidate list.  The source sorts the
suggestion array with the comparator `(a, b) => b.similarity - a.similarity`
(a stable descending sort, `Array.prototype.sort` being stable) and takes
element `0`; that element is the first list entry attaining the maximal
score, which is what this fold keeps (it replaces the current best only on a
strictly greater score). -/
def argmaxFirst (l : List (String × ℚ)) : Option (String × ℚ) :=
  l.foldl
    (fun best x =>
      match best with
      | none => some x
      | some b => if x.2 > b.2 then some x else some b)
    none

/-- `DataProcessor.suggestColumnMapping` (processor.ts lines 253-262): score
the normalised header against every known column (lower-cased), take the
best, and propose it only when its similarity exceeds `0.6`. -/
def suggestColumnMapping (column : String) : String :=
  let normalized := normalizeHeader column
  let suggestions := knownColumnsList.map
    (fun known => (known, calculateSimilarity normalized (toLowerJS known)))
  match argmaxFirst suggestions with
  | some best => if best.2 > (6 : ℚ) / 10 then best.1 else ""
  | none => ""

/-- Case-insensitive substring test: the regexes of
`generateColumnDescription` / `inferDataType` are alternations of plain
literals with the `i` flag, so `/p₁|p₂|…/i.test(s)` is "some `pᵢ` occurs in
`s` ignoring case". -/
def containsCI (s pat : String) : Bool :=
  decide (pat.toList <:+: (toLowerJS s).toList)

/-- `/p₁|p₂|…/i.test(s)` for a list of lower-case literal alternatives. -/
def containsAnyCI (s : String) (pats : List String) : Bool :=
  pats.any (containsCI s)

/-- `DataProcessor.generateColumnDescription` (processor.ts lines 294-310):
first matching regex pattern wins (`Map` iteration is insertion order). -/
def generateColumnDescription (column : String) : String :=
  if containsAnyCI column ["phone", "mobile", "contact"] then "Contact information field"
  else if containsAnyCI column ["email", "mail"] then "Email address field"
  else if containsAnyCI column ["score", "grade", "marks"] then "Academic performance metric"
  else if containsAnyCI column ["date", "dob", "joined"] then "Date-related field"
  else if containsAnyCI column ["address", "location"] then "Location information"
  else if containsAnyCI column ["skill", "technology", "language"] then "Skills or competencies"
  else if containsAnyCI column ["certification", "course"] then "Educational qualification"
  else if containsAnyCI column ["project", "work"] then "Project or work experience"
  else "Unclassified data field"

/-- `DataProcessor.inferDataType` (processor.ts lines 312-327). -/
def inferDataType (column : String) : String :=
  if containsAnyCI column ["date", "dob", "joined"] then "date"
  else if containsAnyCI column ["email"] then "email"
  else if containsAnyCI column ["phone", "mobile"] then "phone"
  else if containsAnyCI column ["score", "grade", "cgpa", "percentage"] then "number"
  else if containsAnyCI column ["is", "has", "can", "should"] then "boolean"
  else if containsAnyCI column ["skills", "technologies", "languages"] then "array"
  else if containsAnyCI column ["description", "details", "address"] then "text"
  else "string"

/-- The `action` tag of a `ColumnMapping` (data-pipeline/types.ts). -/
inductive MappingAction : Type where
  | map
  | skip
  | pending
deriving DecidableEq, Repr

/-- `ColumnMapping` (data-pipeline/types.ts lines 51-58). -/
structure ColumnMapping : Type where
  excelColumn : String
  suggestedMapping : String
  action : MappingAction
  description : String
  dataType : String
  sampleValues : List String
deriving DecidableEq, Repr

/-- `SchemaValidationResult` (data-pipeline/types.ts lines 60-64). -/
structure SchemaValidationResult : Type where
  isValid : Bool
  unmappedColumns : List ColumnMapping
  errors : List String
deriving DecidableEq, Repr

/-- The entry `validateSchema` pushes for an unmapped header. -/
def mkUnmappedColumn (header : String) : ColumnMapping :=
  { excelColumn := header
    suggestedMapping := suggestColumnMapping header
    action := .pending
    description := generateColumnDescription header
    dataType := inferDataType header
    sampleValues := [] }

/-- `DataProcessor.validateSchema` (processor.ts lines 225-251):
`mappingKeys` are the keys of the caller's `options.columnMappings`
override map (empty when the option is absent).  Every header that is
neither a known column nor overridden contributes one pending
`ColumnMapping`. -/
def validateSchema (headers : List String) (mappingKeys : List String) : SchemaValidationResult :=
  let unmappedColumns := headers.foldl
    (fun acc header =>
      if header ∈ knownColumnsList ∨ header ∈ mappingKeys then acc
      else acc ++ [mkUnmappedColumn header])
    []
  { isValid := unmappedColumns.isEmpty
    unmappedColumns := unmappedColumns
    errors := [] }

/-! ### JavaScript string/number conversions used by the `DataMapper` -/

/-- ASCII decimal digit test. -/
def isDigitC (c : Char) : Bool := '0' ≤ c && c ≤ '9'

/-- JavaScript whitespace (the ASCII part; the pipeline's data is ASCII). -/
def isSpaceJS (c : Char) : Bool :=
  c = ' ' || c = '\t' || c = '\n' || c = '\r' || c = '\x0b' || c = '\x0c'

/-- `String.prototype.trim`: strip leading and trailing whitespace. -/
def trimJS (s : String) : String :=
  String.mk (((s.toList.dropWhile isSpaceJS).reverse.dropWhile isSpaceJS).reverse)

/-- `String.prototype.split` on a single-character class regex: cut at every
matching character, keeping empty pieces. -/
def splitChars (p : Char → Bool) : List Char → List (List Char)
  | [] => [[]]
  | c :: rest =>
      let r := splitChars p rest
      if p c then [] :: r
      else (c :: r.headD []) :: r.tail

/-- Numeric value of a digit list, most significant first. -/
def digitsToNat (ds : List Char) : Nat :=
  ds.foldl (fun a c => a * 10 + (c.toNat - '0'.toNat)) 0

/-- `Number.prototype.toString` for the numbers this pipeline produces.
Integers print exactly; non-integers with a terminating decimal expansion
(the only non-integers `parseFloat` can produce) print their shortest exact
decimal form, which is what JS prints for them.  Numbers whose expansion does
not terminate cannot arise here; for totality they fall back to a
fraction rendering. -/
def jsNumToString (q : ℚ) : String :=
  if q.den = 1 then toString q.num
  else
    match (List.range 40).find? (fun k => (q * (10 : ℚ) ^ k).den = 1) with
    | some k =>
        let n := (q * (10 : ℚ) ^ k).num
        let sign := if n < 0 then "-" else ""
        let m := n.natAbs
        let ip := m / 10 ^ k
        let fp := m % 10 ^ k
        let fpStr := toString fp
        sign ++ toString ip ++ "." ++
          String.mk (List.replicate (k - fpStr.length) '0') ++ fpStr
    | none => toString q.num ++ "/" ++ toString q.den

/-- `String(value)` — JavaScript string coercion.  Arrays join their
elements with `","`, rendering `null`/`undefined` elements as the empty
string. -/
def jsToString : Value → String
  | .vnull => "null"
  | .vstr s => s
  | .vnum q => jsNumToString q
  | .vbool true => "true"
  | .vbool false => "false"
  | .varr l => String.intercalate "," (jsToStringElems l)
where
  /-- Stringification of the elements of an array, `Array.prototype.join`
  style. -/
  jsToStringElems : List Value → List String
    | [] => []
    | .vnull :: rest => "" :: jsToStringElems rest
    | v :: rest => jsToString v :: jsToStringElems rest

/-- `parseFloat(s)` returning `none` for `NaN`: skip leading whitespace,
parse an optional sign, integer digits, an optional fraction and an optional
exponent, taking the longest valid numeric prefix.  (`Infinity` literals are
not modelled; no record data produces them.) -/
def jsParseFloat (s : String) : Option ℚ :=
  let cs0 := s.toList.dropWhile isSpaceJS
  let sgn : ℚ := match cs0 with
    | '-' :: _ => -1
    | _ => 1
  let cs := match cs0 with
    | '-' :: rest => rest
    | '+' :: rest => rest
    | _ => cs0
  let intDs := cs.takeWhile isDigitC
  let cs1 := cs.drop intDs.length
  let fracDs := match cs1 with
    | '.' :: rest => rest.takeWhile isDigitC
    | _ => []
  let cs2 := match cs1 with
    | '.' :: rest => rest.drop fracDs.length
    | _ => cs1
  if intDs.isEmpty && fracDs.isEmpty then none
  else
    let mant : ℚ := (digitsToNat intDs : ℚ) + (digitsToNat fracDs : ℚ) / (10 : ℚ) ^ fracDs.length
    let e : ℤ := match cs2 with
      | c :: rest =>
          if c = 'e' || c = 'E' then
            let esgn : ℤ := match rest with
              | '-' :: _ => -1
              | _ => 1
            let rest2 := match rest with
              | '-' :: r => r
              | '+' :: r => r
              | _ => rest
            let eDs := rest2.takeWhile isDigitC
            if eDs.isEmpty then 0 else esgn * (digitsToNat eDs : ℤ)
          else 0
      | [] => 0
    some (sgn * mant * (10 : ℚ) ^ e)

/-! ### `DataMapper` validation rules (data-mapper.ts lines 66-124) -/

/-- `/^[A-Z]{2,4}\d{3,4}$/`: since the two character classes are disjoint,
the regex matches exactly the strings that are an uppercase-letter block of
length 2–4 followed by a digit block of length 3–4 and nothing else. -/
def rollNoPattern (s : String) : Bool :=
  let cs := s.toList
  let ups := cs.takeWhile (fun c => 'A' ≤ c && c ≤ 'Z')
  let rest := cs.drop ups.length
  decide (2 ≤ ups.length) && decide (ups.length ≤ 4) &&
    rest.all isDigitC && decide (3 ≤ rest.length) && decide (rest.length ≤ 4)

/-- `/^[a-zA-Z\s.'-]+$/`: one or more letters, whitespace, dots, apostrophes
or hyphens. -/
def namePattern (s : String) : Bool :=
  !(s.toList.isEmpty) && s.toList.all (fun c =>
    ('a' ≤ c && c ≤ 'z') || ('A' ≤ c && c ≤ 'Z') || isSpaceJS c ||
    c = '.' || c = '\'' || c = '-')

/-- `/^[^\s@]+@[^\s@]+\.[^\s@]+$/`: no whitespace, exactly one `@` that is
not the first character, and (with backtracking over the `[^\s@]+` parts) a
`.` somewhere strictly inside the part after the `@`. -/
def emailPattern (s : String) : Bool :=
  let cs := s.toList
  let before := cs.takeWhile (fun c => c ≠ '@')
  let after := cs.drop (before.length + 1)
  !(cs.any isSpaceJS) && decide (cs.count '@' = 1) && !(before.isEmpty) &&
    ((after.drop 1).dropLast.contains '.')

/-- `/^\d{10}$/`: exactly ten digits. -/
def phonePattern (s : String) : Bool :=
  s.toList.all isDigitC && decide (s.toList.length = 10)

/-- One entry of the `ValidationRuleSet` (data-mapper.ts lines 591-604).
`vtype` and `enumVals` stand for the source's `type` and `enum` fields
(reserved words in Lean); `minV`/`maxV` are `min`/`max`. -/
structure VRule : Type where
  required : Bool := false
  vtype : Option String := none
  pattern : Option (String → Bool) := none
  enumVals : Option (List String) := none
  minV : Option ℚ := none
  maxV : Option ℚ := none
  minLength : Option Nat := none
  maxLength : Option Nat := none
  unique : Bool := false
  message : Option String := none

/-- `DataMapper.initializeValidationRules` (data-mapper.ts lines 66-124),
keyed by field name. -/
def validationRules : String → Option VRule
  | "rollNo" => some
      { required := true, pattern := some rollNoPattern, unique := true,
        message := some "Roll number must be in format: XX000 or XXXX0000" }
  | "name" => some
      { required := true, minLength := some 2, maxLength := some 100,
        pattern := some namePattern,
        message := some "Name must contain only letters, spaces, dots, apostrophes, and hyphens" }
  | "email" => some
      { pattern := some emailPattern, message := some "Invalid email format" }
  | "phone" => some
      { pattern := some phonePattern,
        message := some "Phone number must be exactly 10 digits" }
  | "department" => some
      { required := true,
        enumVals := some ["CS", "IT", "CSBS", "ENTC", "Electrical", "A&R", "Mechanical"],
        message := some "Invalid department" }
  | "year" => some
      { required := true, enumVals := some ["FY", "SY", "TY", "Fourth Year"],
        message := some "Invalid year" }
  | "cgpa" => some
      { required := true, vtype := some "number", minV := some 0, maxV := some 10,
        message := some "CGPA must be between 0 and 10" }
  | "dateOfBirth" => some
      { vtype := some "date", message := some "Invalid date format" }
  | "gender" => some
      { enumVals := some ["male", "female", "other"],
        message := some "Invalid gender" }
  | "bloodGroup" => some
      { enumVals := some ["A+", "A-", "B+", "B-", "AB+", "AB-", "O+", "O-"],
        message := some "Invalid blood group" }
  | _ => none

/-! ### `DataMapper` error objects and field coercion/validation -/

/-- Error severities (`ValidationError.severity`). -/
inductive Severity : Type where
  | critical
  | error
deriving DecidableEq, Repr

/-- `ValidationError` (data-mapper.ts lines 12-19): the environment-generated
`id` (uuid) is not carried. -/
structure ValidationError : Type where
  row : Nat
  field : String
  value : Option Value
  message : String
  severity : Severity
deriving DecidableEq, Repr

/-- `ValidationWarning` (data-mapper.ts lines 21-27), again without the
uuid. -/
structure ValidationWarning : Type where
  row : Nat
  field : String
  value : Option Value
  message : String
deriving DecidableEq, Repr

/-- `ProcessedRecord.validationStatus`. -/
inductive VStatus : Type where
  | valid
  | warning
  | error
deriving DecidableEq, Repr

/-- `ProcessedRecord` (data-mapper.ts lines 29-36). -/
structure ProcessedRecord : Type where
  id : String
  originalData : RecordV
  mappedData : RecordV
  validationStatus : VStatus
  errors : List ValidationError
  warnings : List ValidationWarning
deriving DecidableEq, Repr

/-- `DataMapper.convertDataType` (data-mapper.ts lines 240-270).  Empty
input short-circuits to `undefined` (`Option.none`); number fields go
through `parseFloat` with a thrown error on `NaN`; date fields go through
`new Date(String(value))`, an environment-dependent parser passed in as
`parseDate` (returning the `toISOString().split('T')[0]` day string);
boolean fields normalise the usual literals; everything else becomes the
trimmed string.  A `Date` instance input (`value instanceof Date`) cannot
occur here: row values come from `sheet_to_json` without date coercion. -/
def convertDataType (parseDate : String → Option String) (value : Value)
    (fieldName : String) : Except String (Option Value) :=
  if value = .vnull ∨ value = .vstr "" then .ok none
  else
    match validationRules fieldName with
    | none => .ok (some value)
    | some rule =>
      match rule.vtype with
      | some "number" =>
          match value with
          | .vnum q => .ok (some (.vnum q))
          | _ =>
              match jsParseFloat (jsToString value) with
              | some q => .ok (some (.vnum q))
              | none => .error ("Cannot convert \"" ++ jsToString value ++ "\" to number")
      | some "date" =>
          match parseDate (jsToString value) with
          | some day => .ok (some (.vstr day))
          | none => .error ("Cannot convert \"" ++ jsToString value ++ "\" to date")
      | some "boolean" =>
          match value with
          | .vbool b => .ok (some (.vbool b))
          | _ =>
              let sv := toLowerJS (jsToString value)
              if sv = "true" ∨ sv = "1" ∨ sv = "yes" ∨ sv = "y" then .ok (some (.vbool true))
              else if sv = "false" ∨ sv = "0" ∨ sv = "no" ∨ sv = "n" then .ok (some (.vbool false))
              else .error ("Cannot convert \"" ++ jsToString value ++ "\" to boolean")
      | _ => .ok (some (.vstr (trimJS (jsToString value))))

/-- The per-field `Set` of already-seen values (`uniqueTracker`), an assoc
list of field name to seen values in insertion order.  Only non-`undefined`
values are ever added (the sole `unique` field, `rollNo`, rejects empty
values as required-missing before the add). -/
abbrev UniqueTracker := List (String × List Value)

/-- `uniqueTracker.get(f)`. -/
def trackerGet (t : UniqueTracker) (f : String) : Option (List Value) :=
  (t.find? (fun p => p.1 == f)).map (·.2)

/-- `if (!uniqueTracker.has(f)) uniqueTracker.set(f, new Set());
uniqueTracker.get(f)!.add(v)` — `Set.add` with SameValueZero equality. -/
def trackerAdd (t : UniqueTracker) (f : String) (v : Value) : UniqueTracker :=
  match t with
  | [] => [(f, [v])]
  | (k, s) :: rest =>
      if k = f then (k, if s.any (fun x => jsEq x v) then s else s ++ [v]) :: rest
      else (k, s) :: trackerAdd rest f v

/-- `DataMapper.validateField` (data-mapper.ts lines 272-401): returns
`(isValid, errors, warnings)`.  Checks run in source order — required,
pattern, `enum` membership, numeric range, string length, in-batch
uniqueness — each appending independently; a match against the existing
store produces only a warning. -/
def validateField (fieldName : String) (value : Option Value) (rowIndex : Nat)
    (uniqueTracker : UniqueTracker) (existingRollNos : List String) :
    Bool × List ValidationError × List ValidationWarning :=
  match validationRules fieldName with
  | none => (true, [], [])
  | some rule =>
    let isEmptyV : Bool := match value with
      | none => true
      | some v => v = .vnull ∨ v = .vstr ""
    if rule.required && isEmptyV then
      (false,
       [{ row := rowIndex + 1, field := fieldName, value := value,
          message := fieldName ++ " is required", severity := .error }], [])
    else if isEmptyV then (true, [], [])
    else
      match value with
      | none => (true, [], [])
      | some v =>
        let patErrs : List ValidationError := match rule.pattern with
          | some p =>
              if !(p (jsToString v)) then
                [{ row := rowIndex + 1, field := fieldName, value := some v,
                   message := rule.message.getD ("Invalid format for " ++ fieldName),
                   severity := .error }]
              else []
          | none => []
        let enumErrs : List ValidationError := match rule.enumVals with
          | some es =>
              if !(es.any (fun e => jsEq v (.vstr e))) then
                [{ row := rowIndex + 1, field := fieldName, value := some v,
                   message := fieldName ++ " must be one of: " ++ String.intercalate ", " es,
                   severity := .error }]
              else []
          | none => []
        let rangeErrs : List ValidationError :=
          if rule.vtype = some "number" then
            match v with
            | .vnum q =>
                (match rule.minV with
                 | some m =>
                     if q < m then
                       [{ row := rowIndex + 1, field := fieldName, value := some v,
                          message := fieldName ++ " must be at least " ++ jsNumToString m,
                          severity := .error }]
                     else []
                 | none => []) ++
                (match rule.maxV with
                 | some m =>
                     if q > m then
                       [{ row := rowIndex + 1, field := fieldName, value := some v,
                          message := fieldName ++ " must be at most " ++ jsNumToString m,
                          severity := .error }]
                     else []
                 | none => [])
            | _ => []
          else []
        let lenErrs : List ValidationError := match v with
          | .vstr s =>
              (match rule.minLength with
               | some n =>
                   if n ≠ 0 ∧ s.length < n then
                     [{ row := rowIndex + 1, field := fieldName, value := some v,
                        message := fieldName ++ " must be at least " ++ toString n ++ " characters",
                        severity := .error }]
                   else []
               | none => []) ++
              (match rule.maxLength with
               | some n =>
                   if n ≠ 0 ∧ s.length > n then
                     [{ row := rowIndex + 1, field := fieldName, value := some v,
                        message := fieldName ++ " must be at most " ++ toString n ++ " characters",
                        severity := .error }]
                   else []
               | none => [])
          | _ => []
        let uniqueErrs : List ValidationError :=
          if rule.unique then
            match trackerGet uniqueTracker fieldName with
            | some seen =>
                if seen.any (fun x => jsEq x v) then
                  [{ row := rowIndex + 1, field := fieldName, value := some v,
                     message := "Duplicate " ++ fieldName ++ " found in uploaded data",
                     severity := .error }]
                else []
            | none => []
          else []
        let warns : List ValidationWarning :=
          if rule.unique && fieldName == "rollNo" && existingRollNos.contains (jsToString v) then
            [{ row := rowIndex + 1, field := fieldName, value := some v,
               message := fieldName ++ " already exists in database - will be updated" }]
          else []
        let errs := patErrs ++ enumErrs ++ rangeErrs ++ lenErrs ++ uniqueErrs
        (errs.isEmpty, errs, warns)

/-! ### `DataMapper.validateAndMapData` (data-mapper.ts lines 126-238) -/

/-- Assoc-list read for the string-valued `Map`s (`mappingLookup`). -/
def strMapGet (m : List (String × String)) (k : String) : Option String :=
  (m.find? (fun p => p.1 == k)).map (·.2)

/-- `Map.set` for string-valued maps: overwrite the entry or append. -/
def strMapSet (m : List (String × String)) (k v : String) : List (String × String) :=
  match m with
  | [] => [(k, v)]
  | (k', v') :: rest => if k' = k then (k', v) :: rest else (k', v') :: strMapSet rest k v

/-- The `mappingLookup` map (data-mapper.ts lines 136-141): one entry per
column mapping with `action === 'map'` and a truthy `suggestedMapping`. -/
def buildMappingLookup (columnMappings : List ColumnMapping) : List (String × String) :=
  columnMappings.foldl
    (fun m cm =>
      if cm.action = .map ∧ cm.suggestedMapping ≠ "" then
        strMapSet m cm.excelColumn cm.suggestedMapping
      else m)
    []

/-- `new Set(existingStudents.map(s => s.rollNo))`, as queried by
`has(String(value))`: the query argument is always a string, so only
string-valued `rollNo` properties can ever answer `true`; those are the
members kept. -/
def existingRollNoStrs (existingStudents : List RecordV) : List String :=
  existingStudents.filterMap (fun s =>
    match getVal s "rollNo" with
    | some (.vstr x) => some x
    | _ => none)

/-- Mutable state of the per-row field loop: the row's `mappedData`,
`recordErrors`, `recordWarnings` and the shared `uniqueTracker`. -/
structure FState : Type where
  mappedData : RecordV
  errs : List ValidationError
  warns : List ValidationWarning
  tracker : UniqueTracker
deriving DecidableEq, Repr

/-- One iteration of the per-field loop of `validateAndMapData`
(data-mapper.ts lines 161-199): look the Excel column up in the mapping,
coerce (catching a thrown conversion error into a severity-`error`
`ValidationError`), validate, and on success store the value and record it
in the unique tracker.  Storing an `undefined` converted value creates a
property that no later read distinguishes from an absent one, so it is
modelled as leaving `mappedData` unchanged. -/
def processFieldStep (parseDate : String → Option String)
    (lookup : List (String × String)) (existingRollNos : List String) (rowIndex : Nat)
    (st : FState) (entry : String × Value) : FState :=
  match strMapGet lookup entry.1 with
  | none => st
  | some systemField =>
    match convertDataType parseDate entry.2 systemField with
    | .error msg =>
        { st with errs := st.errs ++
            [{ row := rowIndex + 1, field := systemField, value := some entry.2,
               message := "Data conversion error: " ++ msg, severity := .error }] }
    | .ok convertedValue =>
        let res := validateField systemField convertedValue rowIndex st.tracker existingRollNos
        if res.1 then
          let md := match convertedValue with
            | some v => setVal st.mappedData systemField v
            | none => st.mappedData
          let tr :=
            if (validationRules systemField).elim false (·.unique) then
              match convertedValue with
              | some v => trackerAdd st.tracker systemField v
              | none => st.tracker
            else st.tracker
          { st with mappedData := md, tracker := tr }
        else
          { st with errs := st.errs ++ res.2.1, warns := st.warns ++ res.2.2 }

/-- One `if (!mappedData[k]) mappedData[k] = v;` line of `setDefaultValues`. -/
def setDefaultIfFalsy (md : RecordV) (k : String) (v : Value) : RecordV :=
  if falsyOpt (getVal md k) then setVal md k v else md

/-- One `if (mappedData[k] === undefined) mappedData[k] = v;` line of
`setDefaultValues`. -/
def setDefaultIfAbsent (md : RecordV) (k : String) (v : Value) : RecordV :=
  if (getVal md k).isNone then setVal md k v else md

/-- `DataMapper.setDefaultValues` (data-mapper.ts lines 403-430): the
source's eleven in-place conditional assignments, innermost first. -/
def setDefaultValues (md0 : RecordV) : RecordV :=
  setDefaultIfFalsy
    (setDefaultIfFalsy
      (setDefaultIfAbsent
        (setDefaultIfAbsent
          (setDefaultIfAbsent
            (setDefaultIfFalsy
              (setDefaultIfFalsy
                (setDefaultIfFalsy
                  (setDefaultIfFalsy
                    (setDefaultIfFalsy
                      (setDefaultIfFalsy md0 "skills" (.varr []))
                      "certifications" (.varr []))
                    "testScores" (.varr []))
                  "achievements" (.varr []))
                "internships" (.varr []))
              "projects" (.varr []))
            "attendance" (.vnum 0))
          "backlogCount" (.vnum 0))
        "isEligibleForPlacements" (.vbool false))
      "placementStatus" (.vstr "not_eligible"))
    "gender" (.vstr "other")

/-- The required canonical fields of `validateRequiredFields`. -/
def requiredFieldsList : List String := ["rollNo", "name", "department", "year", "cgpa"]

/-- `DataMapper.validateRequiredFields` (data-mapper.ts lines 432-453): one
severity-`critical` error per required field whose mapped value is falsy
(`!mappedData[field]`). -/
def validateRequiredFields (md : RecordV) (rowIndex : Nat) : List ValidationError :=
  requiredFieldsList.foldl
    (fun errs f =>
      if falsyOpt (getVal md f) then
        errs ++ [{ row := rowIndex + 1, field := f, value := getVal md f,
                   message := f ++ " is required but not mapped or empty",
                   severity := .critical }]
      else errs)
    []

/-- The skills post-processing (data-mapper.ts lines 209-214): a truthy
string value splits on `/[,;|]/`, trims and drops empty pieces. -/
def splitSkills (s : String) : List Value :=
  ((((splitChars (fun c => c = ',' || c = ';' || c = '|') s.toList).map
    (fun cs => trimJS (String.mk cs))).filter
    (fun x => x.length > 0)).map Value.vstr)

/-- The skills re-write at the end of the row loop (data-mapper.ts lines
209-214): a non-empty string value under `skills` is replaced by the split
array. -/
def skillsPost (md1 : RecordV) : RecordV :=
  match getVal md1 "skills" with
  | some (.vstr s) => if s ≠ "" then setVal md1 "skills" (.varr (splitSkills s)) else md1
  | _ => md1

/-- One full row of `validateAndMapData` (data-mapper.ts lines 147-230):
returns the `ProcessedRecord` pushed for the row together with the updated
unique tracker.  `ids rowIndex` stands for the row's `uuidv4()` and `now`
for `new Date().toISOString()`. -/
def processRow (parseDate : String → Option String) (ids : Nat → String) (now : String)
    (lookup : List (String × String)) (existingRollNos : List String)
    (tracker : UniqueTracker) (rowIndex : Nat) (row : RecordV) :
    ProcessedRecord × UniqueTracker :=
  let md0 : RecordV :=
    [("id", .vstr (ids rowIndex)), ("createdAt", .vstr now), ("updatedAt", .vstr now)]
  let st := row.foldl (processFieldStep parseDate lookup existingRollNos rowIndex)
    { mappedData := md0, errs := [], warns := [], tracker := tracker }
  let md1 := setDefaultValues st.mappedData
  let recordErrors := st.errs ++ validateRequiredFields md1 rowIndex
  let md2 := skillsPost md1
  let status := if recordErrors.length > 0 then VStatus.error
    else if st.warns.length > 0 then VStatus.warning else VStatus.valid
  ({ id := ids rowIndex, originalData := row, mappedData := md2,
     validationStatus := status, errors := recordErrors, warnings := st.warns },
   st.tracker)

/-- `MappingValidationResult` (data-mapper.ts lines 5-10). -/
structure MappingValidationResult : Type where
  isValid : Bool
  errors : List ValidationError
  warnings : List ValidationWarning
  processedRecords : List ProcessedRecord
deriving DecidableEq, Repr

/-- `DataMapper.validateAndMapData` (data-mapper.ts lines 126-238): rows are
processed in order, threading the unique tracker; the batch `errors` /
`warnings` are the row collections concatenated in row order. -/
def validateAndMapData (parseDate : String → Option String) (ids : Nat → String)
    (now : String) (rawData : List RecordV) (columnMappings : List ColumnMapping)
    (existingStudents : List RecordV) : MappingValidationResult :=
  let lookup := buildMappingLookup columnMappings
  let exR := existingRollNoStrs existingStudents
  let final := rawData.foldl
    (fun (acc : List ProcessedRecord × UniqueTracker × Nat) row =>
      let r := processRow parseDate ids now lookup exR acc.2.1 acc.2.2 row
      (acc.1 ++ [r.1], r.2, acc.2.2 + 1))
    ([], [], 0)
  let recs := final.1
  let errors := recs.flatMap (·.errors)
  let warnings := recs.flatMap (·.warnings)
  { isValid := errors.isEmpty, errors := errors, warnings := warnings,
    processedRecords := recs }

/-! ### `DataMapper` transfer/audit engine (data-mapper.ts lines 455-589) -/

/-- `AuditEntry.action`. -/
inductive AuditAction : Type where
  | insert
  | update
  | skip
  | error
deriving DecidableEq, Repr

/-- `AuditEntry` (data-mapper.ts lines 49-56) without the environment noise
(`id` uuid, `timestamp`, hard-coded `userId`). -/
structure AuditEntry : Type where
  action : AuditAction
  recordId : String
  changes : List (String × Option Value × Option Value)
deriving DecidableEq, Repr

/-- `DataTransferResult` (data-mapper.ts lines 38-47) without the
`timestamp` string. -/
structure DataTransferResult : Type where
  success : Bool
  transferredCount : Nat
  skippedCount : Nat
  duplicateCount : Nat
  errors : List ValidationError
  warnings : List ValidationWarning
  auditTrail : List AuditEntry
deriving DecidableEq, Repr

/-- `DataMapper.mergeStudentData` (data-mapper.ts lines 526-546): start from
a copy of `existing`; every non-empty incoming value overwrites, except that
two array values merge into the `Set`-deduplicated concatenation; finally
`updatedAt` is stamped with `now`. -/
def mergeStudentData (now : String) (existing incoming : RecordV) : RecordV :=
  let merged := (recKeys incoming).foldl
    (fun m k =>
      match getVal incoming k with
      | none => m
      | some v =>
          if nonEmptyJS v then
            if v.isArr && isArrOpt (getVal m k) then
              setVal m k (Value.varr (jsDedup (elemsOrNil (getVal m k) ++ elemsOrNil (some v))))
            else setVal m k v
          else m)
    existing
  setVal merged "updatedAt" (.vstr now)

/-- `DataMapper.calculateChanges` (data-mapper.ts lines 548-564): the fields
of `newData` whose values differ from `oldData`'s.  The source compares
`JSON.stringify` images; on the values of this pipeline (no `NaN`, no
`undefined`-valued properties, numbers with exact decimal renderings) that
equality coincides with structural equality of the optional values. -/
def calculateChanges (oldData newData : RecordV) :
    List (String × Option Value × Option Value) :=
  (recKeys newData).foldl
    (fun chs k =>
      if getVal oldData k ≠ getVal newData k then
        chs ++ [(k, getVal oldData k, getVal newData k)]
      else chs)
    []

/-- `Map` key equality (SameValueZero) for the `existingStudentsMap`, whose
keys are `student.rollNo` property values — possibly `undefined`
(`Option.none`). -/
def jsEqKey : Option Value → Option Value → Bool
  | none, none => true
  | some a, some b => jsEq a b
  | _, _ => false

/-- The `existingStudentsMap`: assoc list keyed by `rollNo` value. -/
abbrev StudentMap := List (Option Value × RecordV)

/-- `Map.set` on the student map: overwrite the matching key or append. -/
def studentMapSet (m : StudentMap) (k : Option Value) (v : RecordV) : StudentMap :=
  match m with
  | [] => [(k, v)]
  | (k', v') :: rest =>
      if jsEqKey k' k then (k', v) :: rest else (k', v') :: studentMapSet rest k v

/-- `Map.get` on the student map: first (unique) entry with a
SameValueZero-equal key. -/
def studentMapGet (m : StudentMap) (k : Option Value) : Option RecordV :=
  match m with
  | [] => none
  | (k', v) :: rest => if jsEqKey k' k then some v else studentMapGet rest k

/-- `existingStudents.forEach(s => existingStudentsMap.set(s.rollNo, s))`
(data-mapper.ts lines 467-470). -/
def buildStudentMap (existingStudents : List RecordV) : StudentMap :=
  existingStudents.foldl (fun m s => studentMapSet m (getVal s "rollNo") s) []

/-- Loop state of `transferDataToStudentTable`: the counters, accumulated
errors/warnings, `newStudents`, `updatedStudents` and the audit entries
appended during this call. -/
structure TState : Type where
  transferredCount : Nat
  skippedCount : Nat
  duplicateCount : Nat
  errors : List ValidationError
  warnings : List ValidationWarning
  newStudents : List RecordV
  updatedStudents : List RecordV
  audit : List AuditEntry
deriving DecidableEq, Repr

/-- The empty initial loop state. -/
def TState.init : TState :=
  { transferredCount := 0, skippedCount := 0, duplicateCount := 0,
    errors := [], warnings := [], newStudents := [], updatedStudents := [],
    audit := [] }

/-- One iteration of the transfer loop (data-mapper.ts lines 475-505):
error-status records are skipped (their errors accumulated, a `skip` audit
entry appended); otherwise the record inserts or, when its `rollNo` hits the
existing-students map, merges-and-updates. -/
def transferStep (now : String) (emap : StudentMap) (st : TState)
    (record : ProcessedRecord) : TState :=
  if record.validationStatus = .error then
    { st with
      skippedCount := st.skippedCount + 1,
      errors := st.errors ++ record.errors,
      audit := st.audit ++ [{ action := .skip, recordId := record.id, changes := [] }] }
  else
    match studentMapGet emap (getVal record.mappedData "rollNo") with
    | some existingStudent =>
        let updatedStudent := mergeStudentData now existingStudent record.mappedData
        { st with
          updatedStudents := st.updatedStudents ++ [updatedStudent],
          duplicateCount := st.duplicateCount + 1,
          audit := st.audit ++
            [{ action := .update, recordId := record.id,
               changes := calculateChanges existingStudent updatedStudent }],
          warnings := st.warnings ++ record.warnings }
    | none =>
        { st with
          newStudents := st.newStudents ++ [record.mappedData],
          transferredCount := st.transferredCount + 1,
          audit := st.audit ++ [{ action := .insert, recordId := record.id, changes := [] }],
          warnings := st.warnings ++ record.warnings }

/-- Result of the embedded transfer: the returned `DataTransferResult`
together with the `allStudents` union that data-mapper.ts lines 508-512
compute into a local constant (the source drops it — it is exposed here so
that claims about the final collection can be stated). -/
structure TransferOutcome : Type where
  result : DataTransferResult
  allStudents : List RecordV
deriving DecidableEq, Repr

/-- `DataMapper.transferDataToStudentTable` (data-mapper.ts lines 455-524).
`auditTrail0` is the engine instance's audit trail accumulated before this
call (`this.auditTrail`); the returned trail is that plus the entries
appended by this run. -/
def transferDataToStudentTable (now : String) (auditTrail0 : List AuditEntry)
    (processedRecords : List ProcessedRecord) (existingStudents : List RecordV) :
    TransferOutcome :=
  let emap := buildStudentMap existingStudents
  let st := processedRecords.foldl (transferStep now emap) TState.init
  let allStudents :=
    existingStudents.filter (fun s =>
      !(st.updatedStudents.any (fun u => jsEqKey (getVal u "rollNo") (getVal s "rollNo")))) ++
    st.updatedStudents ++ st.newStudents
  { result :=
      { success := st.errors.isEmpty,
        transferredCount := st.transferredCount,
        skippedCount := st.skippedCount,
        duplicateCount := st.duplicateCount,
        errors := st.errors,
        warnings := st.warnings,
        auditTrail := auditTrail0 ++ st.audit },
    allStudents := allStudents }

/-! ### Concrete batch for the transfer scenario (10 valid rows + 2 error rows) -/

/-- A valid `ProcessedRecord` with a distinct roll number, as produced for a
clean input row. -/
def scenarioValidRecord (i : Nat) : ProcessedRecord :=
  { id := "valid-" ++ toString i
    originalData := []
    mappedData := [("rollNo", .vstr ("CS10" ++ toString i)), ("name", .vstr "Student"),
                   ("cgpa", .vnum 8)]
    validationStatus := .valid
    errors := []
    warnings := [] }

/-- A `ProcessedRecord` carrying a critical validation error, as produced for
a row missing a required field. -/
def scenarioErrorRecord (i : Nat) : ProcessedRecord :=
  { id := "error-" ++ toString i
    originalData := []
    mappedData := []
    validationStatus := .error
    errors := [{ row := i, field := "rollNo", value := none,
                 message := "rollNo is required but not mapped or empty",
                 severity := .critical }]
    warnings := [] }

/-- Ten valid rows followed by two rows with critical errors. -/
def scenarioBatch : List ProcessedRecord :=
  (List.range 10).map scenarioValidRecord ++ [scenarioErrorRecord 11, scenarioErrorRecord 12]

/-- A single valid sample record with a fresh roll number. -/
def sampleFreshRecord : ProcessedRecord where
  id := "r1"
  originalData := []
  mappedData := [("rollNo", Value.vstr "CS001")]
  validationStatus := VStatus.valid
  errors := []
  warnings := []

/-- A one-student existing store with roll number `"EX01"`. -/
def sampleStore : List RecordV :=
  [[("rollNo", Value.vstr "EX01")]]

/-! ## Helper lemmas -/

instance : LawfulBEq Value where
  eq_of_beq h := (Value.beqVal_iff _ _).1 h
  rfl := (Value.beqVal_iff _ _).2 rfl

/-- `jsEq` holds exactly for equal non-array values. -/
theorem jsEq_iff {a b : Value} : jsEq a b = true ↔ a = b ∧ a.isArr = false := by
  simp [jsEq]

/-- Strict equality never holds between array values (reference inequality of
the operands at this pipeline's comparison sites). -/
theorem jsEq_varr_left (l : List Value) (b : Value) : jsEq (.varr l) b = false := by
  simp [jsEq, Value.isArr]

/-- Reading a just-written property returns the written value. -/
theorem getVal_setVal_self (r : RecordV) (k : String) (v : Value) :
    getVal (setVal r k v) k = some v := by
  induction r with
  | nil => simp [getVal, setVal]
  | cons hd tl ih =>
      by_cases h : hd.1 = k
      · simp [getVal, setVal, h]
      · simpa [getVal, setVal, h] using ih

/-- Writing one property leaves every other property unchanged. -/
theorem getVal_setVal_ne (r : RecordV) {k k' : String} (h : k ≠ k') (v : Value) :
    getVal (setVal r k v) k' = getVal r k' := by
  induction r with
  | nil => simp [getVal, setVal, h]
  | cons hd tl ih =>
      by_cases hh : hd.1 = k
      · simp [getVal, setVal, hh, h]
      · simp only [setVal, hh, if_neg hh, getVal]
        by_cases hk' : hd.1 = k'
        · simp [hk']
        · simpa [hk'] using ih

/-- Overwriting a property with the value it already holds is a no-op. -/
theorem setVal_eq_of_getVal {r : RecordV} {k : String} {v : Value}
    (h : getVal r k = some v) : setVal r k v = r := by
  induction r with
  | nil => simp [getVal] at h
  | cons hd tl ih =>
      by_cases hh : hd.1 = k
      · simp only [getVal, hh, if_pos rfl] at h
        cases h
        cases hd
        simp_all [setVal]
      · simp only [getVal, hh, if_neg hh] at h
        simp [setVal, hh, ih h]

/-- With duplicate-free keys, an entry's value is what property read
returns. -/
theorem getVal_eq_some_of_mem {r : RecordV} {k : String} {v : Value}
    (hnd : (recKeys r).Nodup) (h : (k, v) ∈ r) : getVal r k = some v := by
  induction r with
  | nil => simp at h
  | cons hd tl ih =>
      simp only [recKeys, List.map_cons, List.nodup_cons] at hnd
      rcases List.mem_cons.mp h with h | h
      · subst h
        simp [getVal]
      · have hk : hd.1 ≠ k := by
          intro hk
          exact hnd.1 (hk ▸ (List.mem_map.mpr ⟨(k, v), h, rfl⟩))
        simpa [getVal, hk] using ih hnd.2 h

/-- A property read misses exactly when the key is absent. -/
theorem getVal_eq_none_iff {r : RecordV} {k : String} :
    getVal r k = none ↔ k ∉ recKeys r := by
  induction r with
  | nil => simp [getVal, recKeys]
  | cons hd tl ih =>
      by_cases hh : hd.1 = k
      · simp [getVal, hh, recKeys]
      · simp [getVal, hh, recKeys, Ne.symm hh] at ih ⊢
        exact ih

/-- Deduplicating a concatenation processes the left part first. -/
theorem jsDedupAux_append (acc l1 l2 : List Value) :
    jsDedupAux acc (l1 ++ l2) = jsDedupAux (jsDedupAux acc l1) l2 := by
  induction l1 generalizing acc with
  | nil => simp [jsDedupAux]
  | cons x xs ih =>
      by_cases h : acc.any (fun y => jsEq y x)
      · simp [jsDedupAux, h, ih]
      · simp [jsDedupAux, h, ih]

/-- Membership in the dedup accumulator: nothing is lost or invented. -/
theorem mem_jsDedupAux {a : Value} (acc l : List Value) :
    a ∈ jsDedupAux acc l ↔ a ∈ acc ∨ a ∈ l := by
  induction l generalizing acc with
  | nil => simp [jsDedupAux]
  | cons x xs ih =>
      by_cases h : acc.any (fun y => jsEq y x)
      · have hx : x ∈ acc := by
          rcases List.any_eq_true.mp h with ⟨z, hz, hzx⟩
          rcases jsEq_iff.mp hzx with ⟨rfl, _⟩
          exact hz
        simp only [jsDedupAux, h, if_pos, List.mem_cons, ih]
        constructor
        · rintro (h' | h')
          · exact Or.inl h'
          · exact Or.inr (Or.inr h')
        · rintro (h' | rfl | h')
          · exact Or.inl h'
          · exact Or.inl hx
          · exact Or.inr h'
      · rw [jsDedupAux, if_neg h, ih]
        simp [List.mem_append, or_assoc]

/-- `jsEq`-matching an element of the deduplicated list is the same as
matching an element of the original. -/
theorem any_jsEq_jsDedup (l : List Value) (y : Value) :
    (jsDedup l).any (fun x => jsEq x y) = l.any (fun x => jsEq x y) := by
  apply Bool.eq_iff_iff.mpr
  simp only [List.any_eq_true]
  constructor
  · rintro ⟨x, hx, hxy⟩
    exact ⟨x, (mem_jsDedupAux [] l).mp hx |>.resolve_left (by simp), hxy⟩
  · rintro ⟨x, hx, hxy⟩
    exact ⟨x, (mem_jsDedupAux [] l).mpr (Or.inr hx), hxy⟩

/-- Running the dedup with a seed accumulator appends exactly the fresh part
of the rest: seed elements are kept verbatim, and the remainder is the
dedup of the elements not already matching the seed. -/
theorem jsDedupAux_eq (l acc : List Value) :
    jsDedupAux acc l = acc ++ jsDedup (l.filter (fun y => !(acc.any (fun x => jsEq x y)))) := by
  have main : ∀ n (l : List Value), l.length ≤ n → ∀ acc,
      jsDedupAux acc l =
        acc ++ jsDedup (l.filter (fun y => !(acc.any (fun x => jsEq x y)))) := by
    intro n
    induction n with
    | zero =>
        intro l hl acc
        interval_cases hlen : l.length
        rw [List.length_eq_zero] at hlen
        subst hlen
        simp [jsDedupAux, jsDedup]
    | succ n ih =>
        intro l hl acc
        match l with
        | [] => simp [jsDedupAux, jsDedup]
        | x :: xs =>
          simp only [List.length_cons, Nat.succ_le_succ_iff] at hl
          by_cases h : acc.any (fun y => jsEq y x)
          · rw [jsDedupAux, if_pos h, ih xs hl acc]
            simp [List.filter_cons, h]
          · rw [jsDedupAux, if_neg h, ih xs hl (acc ++ [x])]
            have hfx : (x :: xs).filter (fun y => !(acc.any (fun x => jsEq x y))) =
                x :: xs.filter (fun y => !(acc.any (fun x => jsEq x y))) := by
              simp [List.filter_cons, h]
            rw [hfx]
            have huf : jsDedup (x :: xs.filter (fun y => !(acc.any (fun x => jsEq x y)))) =
                x :: jsDedup ((xs.filter (fun y => !(acc.any (fun x => jsEq x y)))).filter
                  (fun y => !([x].any (fun z => jsEq z y)))) := by
              have : jsDedup (x :: xs.filter (fun y => !(acc.any (fun x => jsEq x y)))) =
                  jsDedupAux [x] (xs.filter (fun y => !(acc.any (fun x => jsEq x y)))) := by
                simp [jsDedup, jsDedupAux]
              rw [this, ih _ (le_trans (List.length_filter_le _ _) hl) [x]]
              simp
            rw [huf, List.filter_filter]
            have hcomb :
                (xs.filter (fun y => !((acc ++ [x]).any (fun z => jsEq z y)))) =
                (xs.filter (fun a => (!([x].any (fun z => jsEq z a))) &&
                  (!(acc.any (fun x => jsEq x a))))) := by
              apply List.filter_congr
              intro a _
              simp [List.any_append, Bool.not_or, Bool.and_comm]
            rw [hcomb]
            simp
  exact main l.length l le_rfl acc

/-- Dedup of a concatenation: the dedup of the left part, then the dedup of
the right-part elements not already present on the left. -/
theorem jsDedup_append (xs ys : List Value) :
    jsDedup (xs ++ ys) =
      jsDedup xs ++ jsDedup (ys.filter (fun y => !(xs.any (fun x => jsEq x y)))) := by
  rw [jsDedup, jsDedupAux_append, jsDedupAux_eq]
  show jsDedup xs ++ _ = jsDedup xs ++ _
  congr 1
  apply congrArg
  apply List.filter_congr
  intro a _
  have h := any_jsEq_jsDedup xs a
  rw [jsDedup] at h
  rw [h]

/-- A duplicate-free list of non-array values deduplicates to itself. -/
theorem jsDedup_eq_self {xs : List Value} (hnd : xs.Nodup)
    (harr : ∀ e ∈ xs, e.isArr = false) : jsDedup xs = xs := by
  induction xs with
  | nil => simp [jsDedup, jsDedupAux]
  | cons x l ih =>
      have h1 : jsDedup (x :: l) = jsDedupAux [x] l := by
        simp [jsDedup, jsDedupAux]
      rw [h1, jsDedupAux_eq]
      have hfl : l.filter (fun y => !([x].any (fun z => jsEq z y))) = l := by
        apply List.filter_eq_self.mpr
        intro a ha
        have : jsEq x a = false := by
          by_cases h : jsEq x a = true
          · rcases jsEq_iff.mp h with ⟨rfl, _⟩
            exact absurd ha (List.nodup_cons.mp hnd).1
          · exact Bool.eq_false_iff.mpr h
        simp [this]
      rw [hfl, ih (List.nodup_cons.mp hnd).2 (fun e he => harr e (List.mem_cons_of_mem _ he))]
      simp

/-- `[...new Set([...xs, ...xs])] = xs` for duplicate-free non-array
element lists. -/
theorem jsDedup_self_append {xs : List Value} (hnd : xs.Nodup)
    (harr : ∀ e ∈ xs, e.isArr = false) : jsDedup (xs ++ xs) = xs := by
  rw [jsDedup_append]
  have hfe : xs.filter (fun y => !(xs.any (fun x => jsEq x y))) = [] := by
    apply List.filter_eq_nil_iff.mpr
    intro a ha
    have : xs.any (fun x => jsEq x a) = true :=
      List.any_eq_true.mpr ⟨a, ha, jsEq_iff.mpr ⟨rfl, harr a ha⟩⟩
    simp [this]
  rw [hfe, jsDedup_eq_self hnd harr]
  simp [jsDedup, jsDedupAux]

/-- The fuel value is irrelevant once it bounds the total input length. -/
theorem editDistanceGo_congr :
    ∀ (f1 f2 : Nat) (xs ys : List Char), xs.length + ys.length ≤ f1 →
      xs.length + ys.length ≤ f2 → editDistanceGo f1 xs ys = editDistanceGo f2 xs ys := by
  intro f1
  induction f1 with
  | zero =>
      intro f2 xs ys h1 _
      match xs, ys with
      | [], ys => cases f2 <;> rfl
      | x :: xs, [] => cases f2 <;> rfl
      | x :: xs, y :: ys => simp at h1
  | succ f1 ih =>
      intro f2 xs ys h1 h2
      match xs, ys with
      | [], ys => cases f2 <;> rfl
      | x :: xs, [] => cases f2 <;> rfl
      | x :: xs, y :: ys =>
          match f2 with
          | 0 => simp at h2
          | f2 + 1 =>
              simp only [List.length_cons] at h1 h2
              show min (min (editDistanceGo f1 (x :: xs) ys + 1)
                  (editDistanceGo f1 xs (y :: ys) + 1))
                  (editDistanceGo f1 xs ys + (if x = y then 0 else 1)) =
                min (min (editDistanceGo f2 (x :: xs) ys + 1)
                  (editDistanceGo f2 xs (y :: ys) + 1))
                  (editDistanceGo f2 xs ys + (if x = y then 0 else 1))
              rw [ih f2 (x :: xs) ys (by simp; omega) (by simp; omega),
                ih f2 xs (y :: ys) (by simp; omega) (by simp; omega),
                ih f2 xs ys (by omega) (by omega)]

/-- Distance from the empty list: the other list's length. -/
theorem editDistance_nil_left (ys : List Char) : editDistance [] ys = ys.length := by
  cases ys with
  | nil => rfl
  | cons y l => rfl

/-- Distance to the empty list: the list's length. -/
theorem editDistance_nil_right (xs : List Char) : editDistance xs [] = xs.length := by
  cases xs with
  | nil => rfl
  | cons x l => rfl

/-- The defining Levenshtein recurrence, realised by the fueled function. -/
theorem editDistance_cons_cons (x : Char) (xs : List Char) (y : Char) (ys : List Char) :
    editDistance (x :: xs) (y :: ys) =
      min (min (editDistance (x :: xs) ys + 1) (editDistance xs (y :: ys) + 1))
        (editDistance xs ys + (if x = y then 0 else 1)) := by
  show editDistanceGo ((x :: xs).length + (y :: ys).length) (x :: xs) (y :: ys) = _
  have hx : (x :: xs).length + (y :: ys).length = (xs.length + ys.length + 1) + 1 := by
    simp
    omega
  rw [hx]
  show min (min (editDistanceGo (xs.length + ys.length + 1) (x :: xs) ys + 1)
      (editDistanceGo (xs.length + ys.length + 1) xs (y :: ys) + 1))
      (editDistanceGo (xs.length + ys.length + 1) xs ys + (if x = y then 0 else 1)) = _
  rw [editDistanceGo_congr (xs.length + ys.length + 1) ((x :: xs).length + ys.length)
      (x :: xs) ys (by simp; omega) (by simp),
    editDistanceGo_congr (xs.length + ys.length + 1) (xs.length + (y :: ys).length)
      xs (y :: ys) (by simp; omega) (by simp),
    editDistanceGo_congr (xs.length + ys.length + 1) (xs.length + ys.length)
      xs ys (by omega) (by omega)]
  rfl

/-- The distance from a list to itself is zero. -/
theorem editDistance_self (xs : List Char) : editDistance xs xs = 0 := by
  induction xs with
  | nil => rfl
  | cons x l ih =>
      rw [editDistance_cons_cons]
      simp [ih]

/-- The edit distance never exceeds the longer input's length (replace the
overlap, insert or delete the difference). -/
theorem editDistance_le_max (xs ys : List Char) :
    editDistance xs ys ≤ max xs.length ys.length := by
  have main : ∀ n (xs ys : List Char), xs.length + ys.length ≤ n →
      editDistance xs ys ≤ max xs.length ys.length := by
    intro n
    induction n with
    | zero =>
        intro xs ys h
        have hx : xs = [] := List.length_eq_zero.mp (by omega)
        have hy : ys = [] := List.length_eq_zero.mp (by omega)
        subst hx; subst hy
        simp [editDistance_nil_left]
    | succ n ih =>
        intro xs ys h
        match xs, ys with
        | [], ys => simp [editDistance_nil_left]
        | x :: xs, [] => simp [editDistance_nil_right]
        | x :: xs, y :: ys =>
            rw [editDistance_cons_cons]
            have h3 : editDistance xs ys ≤ max xs.length ys.length := by
              apply ih
              simp only [List.length_cons] at h
              omega
            have hcost : (if x = y then 0 else 1) ≤ 1 := by
              split <;> omega
            calc min (min (editDistance (x :: xs) ys + 1) (editDistance xs (y :: ys) + 1))
                  (editDistance xs ys + (if x = y then 0 else 1))
                ≤ editDistance xs ys + (if x = y then 0 else 1) := min_le_right _ _
              _ ≤ max xs.length ys.length + 1 := by omega
              _ ≤ max (x :: xs).length (y :: ys).length := by
                  simp only [List.length_cons]
                  omega
  exact main (xs.length + ys.length) xs ys le_rfl

/-- Edit distance is symmetric. -/
theorem editDistance_comm (xs ys : List Char) :
    editDistance xs ys = editDistance ys xs := by
  have main : ∀ n (xs ys : List Char), xs.length + ys.length ≤ n →
      editDistance xs ys = editDistance ys xs := by
    intro n
    induction n with
    | zero =>
        intro xs ys h
        have hx : xs = [] := List.length_eq_zero.mp (by omega)
        have hy : ys = [] := List.length_eq_zero.mp (by omega)
        subst hx; subst hy
        rfl
    | succ n ih =>
        intro xs ys h
        match xs, ys with
        | [], [] => rfl
        | [], y :: ys => simp [editDistance_nil_left, editDistance_nil_right]
        | x :: xs, [] => simp [editDistance_nil_left, editDistance_nil_right]
        | x :: xs, y :: ys =>
            simp only [List.length_cons] at h
            rw [editDistance_cons_cons, editDistance_cons_cons]
            rw [ih (x :: xs) ys (by simp; omega), ih xs (y :: ys) (by simp; omega),
              ih xs ys (by omega)]
            have hc : (if x = y then 0 else 1) = (if y = x then 0 else 1) := by
              by_cases hxy : x = y
              · simp [hxy]
              · simp [hxy, Ne.symm hxy]
            rw [hc]
            rw [min_comm (editDistance ys (x :: xs) + 1) (editDistance (y :: ys) xs + 1)]
  exact main (xs.length + ys.length) xs ys le_rfl

/-- Mathlib's unit-cost Levenshtein distance to the empty list is the
length. -/
theorem levenshteinDefault_nil_right (l : List Char) :
    levenshtein Levenshtein.defaultCost l [] = l.length := by
  induction l with
  | nil => simp
  | cons a l ihl =>
      rw [levenshtein_cons_nil, ihl]
      simp [Nat.add_comm]

/-- Mathlib's unit-cost Levenshtein distance from the empty list is the
length. -/
theorem levenshteinDefault_nil_left (l : List Char) :
    levenshtein Levenshtein.defaultCost [] l = l.length := by
  induction l with
  | nil => simp
  | cons y ys ihy =>
      rw [levenshtein_nil_cons, ihy]
      simp [Nat.add_comm]

/-- The embedded recurrence computes Mathlib's Levenshtein distance with the
all-unit-cost structure: the distance is the classic one. -/
theorem editDistance_eq_levenshtein (xs ys : List Char) :
    editDistance xs ys = levenshtein Levenshtein.defaultCost xs ys := by
  have main : ∀ n (xs ys : List Char), xs.length + ys.length ≤ n →
      editDistance xs ys = levenshtein Levenshtein.defaultCost xs ys := by
    intro n
    induction n with
    | zero =>
        intro xs ys h
        have hx : xs = [] := List.length_eq_zero.mp (by omega)
        have hy : ys = [] := List.length_eq_zero.mp (by omega)
        subst hx; subst hy
        simp [editDistance_nil_left]
    | succ n ih =>
        intro xs ys h
        match xs, ys with
        | [], ys =>
            rw [levenshteinDefault_nil_left]
            simp [editDistance_nil_left]
        | x :: xs, [] =>
            rw [levenshteinDefault_nil_right]
            simp [editDistance_nil_right]
        | x :: xs, y :: ys =>
            simp only [List.length_cons] at h
            rw [editDistance_cons_cons, levenshtein_cons_cons]
            rw [ih (x :: xs) ys (by simp; omega), ih xs (y :: ys) (by simp; omega),
              ih xs ys (by omega)]
            simp only [Levenshtein.defaultCost_delete, Levenshtein.defaultCost_insert,
              Levenshtein.defaultCost_substitute]
            rw [Nat.min_comm (levenshtein Levenshtein.defaultCost (x :: xs) ys + 1)
              (levenshtein Levenshtein.defaultCost xs (y :: ys) + 1)]
            rw [min_assoc]
            congr 1
            · omega
            · congr 1
              · omega
              · by_cases hxy : x = y <;> simp [hxy, Nat.add_comm]
  exact main (xs.length + ys.length) xs ys le_rfl

/-- The similarity score always equals `1 - d/max(len a, len b)` (with the
`0/0 = 1` empty-empty case agreeing because `ℚ` division by zero is zero). -/
theorem calculateSimilarity_formula (a b : String) :
    calculateSimilarity a b =
      1 - (editDistance a.toList b.toList : ℚ) / ((max a.length b.length : ℕ) : ℚ) := by
  unfold calculateSimilarity
  by_cases h : a.length > b.length
  · have hmax : max a.length b.length = a.length := Nat.max_eq_left (le_of_lt h)
    have hne : a.length ≠ 0 := by omega
    rw [if_pos h, if_pos h, if_neg hne, hmax]
    have hLne : ((a.length : ℚ)) ≠ 0 := by
      exact_mod_cast hne
    field_simp
  · have hle : a.length ≤ b.length := Nat.le_of_not_lt h
    have hmax : max a.length b.length = b.length := Nat.max_eq_right hle
    rw [if_neg h, if_neg h, hmax]
    by_cases hz : b.length = 0
    · have haz : a.length = 0 := by omega
      have hbl : b.toList = [] := by
        apply List.length_eq_zero.mp
        simpa using hz
      have hal : a.toList = [] := by
        apply List.length_eq_zero.mp
        simpa using haz
      rw [if_pos hz, hal, hbl, hz]
      simp [editDistance_nil_left]
    · have hLne : ((b.length : ℚ)) ≠ 0 := by
        exact_mod_cast hz
      rw [if_neg hz, editDistance_comm]
      field_simp

/-- **C2** (confirmed).  For all strings `a` and `b`, the similarity score
equals `1 - editDistance(a,b) / max(len a, len b)`, where `editDistance` is
the classic Levenshtein distance with unit insert/delete/substitute costs
(witnessed by agreement with Mathlib's `levenshtein` under the unit cost
structure); the score lies in `[0, 1]`, equals `1.0` when both inputs are
empty, and `similarity(a, a) = 1.0` for every string `a`. -/
theorem C2_similarity_contract (a b : String) :
    calculateSimilarity a b =
      1 - (editDistance a.toList b.toList : ℚ) / ((max a.length b.length : ℕ) : ℚ) ∧
    0 ≤ calculateSimilarity a b ∧ calculateSimilarity a b ≤ 1 ∧
    calculateSimilarity a a = 1 ∧
    calculateSimilarity "" "" = 1 ∧
    editDistance a.toList b.toList = levenshtein Levenshtein.defaultCost a.toList b.toList := by
  have hstringlen : ∀ s : String, s.toList.length = s.length := by
    intro s
    simp
  have hbounds : 0 ≤ calculateSimilarity a b ∧ calculateSimilarity a b ≤ 1 := by
    rw [calculateSimilarity_formula]
    by_cases hz : max a.length b.length = 0
    · have haz : a.length = 0 := by omega
      have hbz : b.length = 0 := by omega
      have hal : a.toList = [] := by
        apply List.length_eq_zero.mp
        simpa using haz
      have hbl : b.toList = [] := by
        apply List.length_eq_zero.mp
        simpa using hbz
      rw [hal, hbl, hz]
      norm_num [editDistance_nil_left]
    · have hdle : editDistance a.toList b.toList ≤ max a.length b.length := by
        have := editDistance_le_max a.toList b.toList
        rwa [hstringlen a, hstringlen b] at this
      have hLpos : (0 : ℚ) < ((max a.length b.length : ℕ) : ℚ) := by
        exact_mod_cast Nat.pos_of_ne_zero hz
      constructor
      · have hdivle : (editDistance a.toList b.toList : ℚ) / ((max a.length b.length : ℕ) : ℚ) ≤ 1 := by
          rw [div_le_one hLpos]
          exact_mod_cast hdle
        linarith
      · have hdivnn : 0 ≤ (editDistance a.toList b.toList : ℚ) / ((max a.length b.length : ℕ) : ℚ) :=
          div_nonneg (by positivity) (le_of_lt hLpos)
        linarith
  refine ⟨calculateSimilarity_formula a b, hbounds.1, hbounds.2, ?_, ?_,
    editDistance_eq_levenshtein _ _⟩
  · rw [calculateSimilarity_formula, editDistance_self]
    simp
  · rw [calculateSimilarity_formula]
    simp [editDistance_nil_left]

/-- The first-maximum fold starting from a seed yields an element that is
the seed or a list member and dominates the seed and every list member. -/
theorem argmaxFirst_fold_spec (l : List (String × ℚ)) (b : String × ℚ) :
    ∃ best, l.foldl
        (fun best x =>
          match best with
          | none => some x
          | some c => if x.2 > c.2 then some x else some c)
        (some b) = some best ∧
      (best = b ∨ best ∈ l) ∧ b.2 ≤ best.2 ∧ ∀ x ∈ l, x.2 ≤ best.2 := by
  induction l generalizing b with
  | nil => exact ⟨b, rfl, Or.inl rfl, le_refl _, by simp⟩
  | cons x xs ih =>
      by_cases h : x.2 > b.2
      · obtain ⟨best, hfold, hmem, hle, hall⟩ := ih x
        refine ⟨best, by simpa [h] using hfold, ?_, le_of_lt (lt_of_lt_of_le h hle), ?_⟩
        · rcases hmem with rfl | hmem
          · exact Or.inr (List.mem_cons_self _ _)
          · exact Or.inr (List.mem_cons_of_mem _ hmem)
        · intro y hy
          rcases List.mem_cons.mp hy with rfl | hy
          · exact hle
          · exact hall y hy
      · obtain ⟨best, hfold, hmem, hle, hall⟩ := ih b
        refine ⟨best, by simpa [h] using hfold, ?_, hle, ?_⟩
        · rcases hmem with rfl | hmem
          · exact Or.inl rfl
          · exact Or.inr (List.mem_cons_of_mem _ hmem)
        · intro y hy
          rcases List.mem_cons.mp hy with rfl | hy
          · exact le_trans (le_of_not_lt h) hle
          · exact hall y hy

/-- On a nonempty candidate list, the first-maximum fold returns a member
attaining the maximum score. -/
theorem argmaxFirst_spec (a : String × ℚ) (l : List (String × ℚ)) :
    ∃ best, argmaxFirst (a :: l) = some best ∧ best ∈ a :: l ∧
      ∀ x ∈ a :: l, x.2 ≤ best.2 := by
  obtain ⟨best, hfold, hmem, hle, hall⟩ := argmaxFirst_fold_spec l a
  refine ⟨best, ?_, ?_, ?_⟩
  · simpa [argmaxFirst] using hfold
  · rcases hmem with rfl | hmem
    · exact List.mem_cons_self _ _
    · exact List.mem_cons_of_mem _ hmem
  · intro x hx
    rcases List.mem_cons.mp hx with rfl | hx
    · exact hle
    · exact hall x hx

/-- `validateSchema` collects exactly one pending `ColumnMapping` per header
outside the known set and the caller's override keys, in header order. -/
theorem validateSchema_unmapped_eq (headers mappingKeys : List String) :
    (validateSchema headers mappingKeys).unmappedColumns =
      (headers.filter
        (fun header => !(decide (header ∈ knownColumnsList ∨ header ∈ mappingKeys)))).map
        mkUnmappedColumn := by
  have main : ∀ (hs : List String) (acc : List ColumnMapping),
      hs.foldl
        (fun acc header =>
          if header ∈ knownColumnsList ∨ header ∈ mappingKeys then acc
          else acc ++ [mkUnmappedColumn header])
        acc =
      acc ++ (hs.filter
        (fun header => !(decide (header ∈ knownColumnsList ∨ header ∈ mappingKeys)))).map
        mkUnmappedColumn := by
    intro hs
    induction hs with
    | nil => intro acc; simp
    | cons x xs ih =>
        intro acc
        by_cases h : x ∈ knownColumnsList ∨ x ∈ mappingKeys
        · rw [List.foldl_cons, if_pos h, ih, List.filter_cons]
          have hb : (!decide (x ∈ knownColumnsList ∨ x ∈ mappingKeys)) = false := by
            simp [h]
          rw [hb]
          simp
        · rw [List.foldl_cons, if_neg h, ih, List.filter_cons]
          have hb : (!decide (x ∈ knownColumnsList ∨ x ∈ mappingKeys)) = true := by
            simp [h]
          rw [hb]
          simp
  exact main headers []

/-- The suggestion for a header is governed by the maximal similarity over
the known columns: some known column attains the maximum, and the suggestion
is that column when its score exceeds `0.6` and blank otherwise. -/
theorem suggestColumnMapping_spec (h : String) :
    ∃ best ∈ knownColumnsList,
      (∀ k ∈ knownColumnsList,
        calculateSimilarity (normalizeHeader h) (toLowerJS k) ≤
          calculateSimilarity (normalizeHeader h) (toLowerJS best)) ∧
      suggestColumnMapping h =
        (if calculateSimilarity (normalizeHeader h) (toLowerJS best) > (6 : ℚ) / 10 then best
         else "") := by
  have hlist : knownColumnsList.map
      (fun known => (known, calculateSimilarity (normalizeHeader h) (toLowerJS known))) =
      ("PRN", calculateSimilarity (normalizeHeader h) (toLowerJS "PRN")) ::
        (["name", "email", "department", "year", "cgpa", "phone", "skills",
          "certifications", "projects", "internships"].map
          (fun known => (known, calculateSimilarity (normalizeHeader h) (toLowerJS known)))) := by
    simp [knownColumnsList]
  obtain ⟨best, hfold, hmem, hall⟩ := argmaxFirst_spec
    ("PRN", calculateSimilarity (normalizeHeader h) (toLowerJS "PRN"))
    (["name", "email", "department", "year", "cgpa", "phone", "skills",
      "certifications", "projects", "internships"].map
      (fun known => (known, calculateSimilarity (normalizeHeader h) (toLowerJS known))))
  rw [← hlist] at hfold hmem hall
  have hbest2 : best.2 = calculateSimilarity (normalizeHeader h) (toLowerJS best.1) := by
    rcases List.mem_map.mp hmem with ⟨k, _, hk⟩
    rw [← hk]
  refine ⟨best.1, ?_, ?_, ?_⟩
  · rcases List.mem_map.mp hmem with ⟨k, hkmem, hk⟩
    rw [← hk]
    exact hkmem
  · intro k hkmem
    have := hall (k, calculateSimilarity (normalizeHeader h) (toLowerJS k))
      (List.mem_map.mpr ⟨k, hkmem, rfl⟩)
    simpa [hbest2] using this
  · have hmatch : suggestColumnMapping h =
        match argmaxFirst (knownColumnsList.map
          (fun known => (known, calculateSimilarity (normalizeHeader h) (toLowerJS known)))) with
        | some b => if b.2 > (6 : ℚ) / 10 then b.1 else ""
        | none => "" := rfl
    rw [hmatch]
    simp only [hfold]
    rw [hbest2]

set_option maxRecDepth 1000000 in
unseal Rat.mul Rat.inv Rat.sub Rat.add in
/-- **C1** counterexample.  For the header `"names"` the maximal similarity
against the known fields is `0.8 > 0.6` (attained by `name`), yet the
`ColumnMapping` entry the Schema Matcher produces still carries
`action = pending` (with the matched field only recorded as
`suggestedMapping`, and a regex-inferred description in every case) — the
claim's `action = map` branch does not exist in the code. -/
theorem C1_counterexample :
    calculateSimilarity (normalizeHeader "names") (toLowerJS "name") = 4 / 5 ∧
    ((4 : ℚ) / 5 > 6 / 10) ∧
    (validateSchema ["names"] []).unmappedColumns =
      [{ excelColumn := "names", suggestedMapping := "name", action := .pending,
         description := "Unclassified data field", dataType := "string",
         sampleValues := [] }] := by
  decide

/-- **C1** (amended).  For every raw header not in the known-field set and
not in the caller's override mapping, the Schema Matcher computes the
similarity of the normalized header against every known field and picks the
maximum; the proposed entry records that maximal field as
`suggestedMapping` when the maximum exceeds the fixed threshold `0.6` and a
blank suggestion otherwise, but its `action` is always `pending` (never
`map`), and the regex-pattern-inferred `description` (e.g. "Contact
information field" for `/phone|mobile|contact/i`) is attached in both
cases. -/
theorem C1_schema_matcher (headers mappingKeys : List String) (h : String)
    (hmem : h ∈ headers) (hknown : h ∉ knownColumnsList) (hover : h ∉ mappingKeys) :
    ({ excelColumn := h, suggestedMapping := suggestColumnMapping h,
       action := .pending, description := generateColumnDescription h,
       dataType := inferDataType h, sampleValues := [] } : ColumnMapping) ∈
      (validateSchema headers mappingKeys).unmappedColumns ∧
    ∃ best ∈ knownColumnsList,
      (∀ k ∈ knownColumnsList,
        calculateSimilarity (normalizeHeader h) (toLowerJS k) ≤
          calculateSimilarity (normalizeHeader h) (toLowerJS best)) ∧
      suggestColumnMapping h =
        (if calculateSimilarity (normalizeHeader h) (toLowerJS best) > (6 : ℚ) / 10 then best
         else "") := by
  constructor
  · rw [validateSchema_unmapped_eq]
    apply List.mem_map.mpr
    refine ⟨h, ?_, rfl⟩
    apply List.mem_filter.mpr
    refine ⟨hmem, ?_⟩
    simp [hknown, hover]
  · exact suggestColumnMapping_spec h

/-- Witness for C1: the amended theorem applied to the header `"names"`. -/
theorem C1_schema_matcher_witness :
    (("names" ∈ ["names"]) ∧ "names" ∉ knownColumnsList ∧ "names" ∉ ([] : List String)) ∧
    (({ excelColumn := "names", suggestedMapping := suggestColumnMapping "names",
        action := .pending, description := generateColumnDescription "names",
        dataType := inferDataType "names", sampleValues := [] } : ColumnMapping) ∈
      (validateSchema ["names"] []).unmappedColumns ∧
    ∃ best ∈ knownColumnsList,
      (∀ k ∈ knownColumnsList,
        calculateSimilarity (normalizeHeader "names") (toLowerJS k) ≤
          calculateSimilarity (normalizeHeader "names") (toLowerJS best)) ∧
      suggestColumnMapping "names" =
        (if calculateSimilarity (normalizeHeader "names") (toLowerJS best) > (6 : ℚ) / 10
         then best else "")) :=
  ⟨⟨by decide, by decide, by decide⟩,
   C1_schema_matcher ["names"] [] "names" (by decide) (by decide) (by decide)⟩

/-- What one smart-merge step stores at its own key. -/
theorem smartStep_getVal_self (m : RecordV) (k : String) (v : Value) :
    getVal (smartStep m (k, v)) k = smartValueSpec (getVal m k) v := by
  rw [smartStep, smartValueSpec]
  by_cases h : (falsyOpt (getVal m k) || nonEmptyJS v) = true
  · rw [if_pos h, if_pos h]
    by_cases h2 : (isArrOpt (getVal m k) && Value.isArr v) = true
    · rw [if_pos h2, if_pos h2, getVal_setVal_self]
    · rw [if_neg h2, if_neg h2, getVal_setVal_self]
  · rw [if_neg h, if_neg h]

/-- A smart-merge step leaves other keys untouched. -/
theorem smartStep_getVal_ne (m : RecordV) (kv : String × Value) {k' : String}
    (h : kv.1 ≠ k') : getVal (smartStep m kv) k' = getVal m k' := by
  rw [smartStep]
  by_cases hc : (falsyOpt (getVal m kv.1) || nonEmptyJS kv.2) = true
  · rw [if_pos hc]
    by_cases h2 : (isArrOpt (getVal m kv.1) && Value.isArr kv.2) = true
    · rw [if_pos h2, getVal_setVal_ne _ h]
    · rw [if_neg h2, getVal_setVal_ne _ h]
  · rw [if_neg hc]

/-- Keys absent from the incoming record are never touched by the smart
merge. -/
theorem mergeSmart_getVal_not_mem (existing incoming : RecordV) (k : String)
    (hk : k ∉ recKeys incoming) :
    getVal (mergeRecords existing incoming .smart) k = getVal existing k := by
  show getVal (incoming.foldl smartStep existing) k = getVal existing k
  induction incoming generalizing existing with
  | nil => rfl
  | cons kv rest ih =>
      simp only [recKeys, List.map_cons, List.mem_cons, not_or] at hk
      rw [List.foldl_cons]
      rw [ih _ (by simp [recKeys, hk.2])]
      exact smartStep_getVal_ne existing kv (Ne.symm hk.1)

/-- Pointwise description of the smart merge at a key the incoming record
holds (keys are unique in a JS object). -/
theorem mergeSmart_getVal_mem (existing incoming : RecordV) (k : String) (v : Value)
    (hnd : (recKeys incoming).Nodup) (hk : (k, v) ∈ incoming) :
    getVal (mergeRecords existing incoming .smart) k =
      smartValueSpec (getVal existing k) v := by
  obtain ⟨l1, l2, rfl⟩ := List.append_of_mem hk
  have hkeys : recKeys (l1 ++ (k, v) :: l2) = recKeys l1 ++ k :: recKeys l2 := by
    simp [recKeys]
  rw [hkeys] at hnd
  have hk1 : k ∉ recKeys l1 := by
    intro hmem
    exact (List.disjoint_of_nodup_append hnd) hmem (List.mem_cons_self _ _)
  have hk2 : k ∉ recKeys l2 := by
    have := (List.nodup_append.mp hnd).2.1
    exact (List.nodup_cons.mp this).1
  show getVal ((l1 ++ (k, v) :: l2).foldl smartStep existing) k = _
  rw [List.foldl_append, List.foldl_cons]
  have hfold1 : getVal (l1.foldl smartStep existing) k = getVal existing k :=
    mergeSmart_getVal_not_mem existing l1 k hk1
  have hfold2 : getVal (l2.foldl smartStep (smartStep (l1.foldl smartStep existing) (k, v))) k =
      getVal (smartStep (l1.foldl smartStep existing) (k, v)) k :=
    mergeSmart_getVal_not_mem _ l2 k hk2
  rw [hfold2, smartStep_getVal_self, hfold1]

/-- **C3** (confirmed).  Under the `smart` strategy the merge acts pointwise:
for every field the incoming record defines, the stored value is
`smartValueSpec` of the existing and incoming values -- the existing value is
kept exactly when it is truthy and the incoming value is empty (i.e. the
incoming value replaces it exactly when the existing value is empty/falsy or
the incoming value is non-empty), except that two array values merge into
the deduplicated union -- existing elements first, then the incoming elements
not already present -- rather than a replacement; fields the incoming record
does not define keep the existing value. -/
theorem C3_smart_merge (existing incoming : RecordV)
    (hnd : (recKeys incoming).Nodup) :
    (∀ k v, (k, v) ∈ incoming →
      getVal (mergeRecords existing incoming .smart) k =
        smartValueSpec (getVal existing k) v) ∧
    (∀ k, k ∉ recKeys incoming →
      getVal (mergeRecords existing incoming .smart) k = getVal existing k) ∧
    (∀ ex v, falsyOpt ex = false → nonEmptyJS v = false → smartValueSpec ex v = ex) ∧
    (∀ xs ys : List Value,
      smartValueSpec (some (Value.varr xs)) (Value.varr ys) =
        some (Value.varr (jsDedup xs ++
          jsDedup (ys.filter (fun y => !(xs.any (fun x => jsEq x y))))))) ∧
    (∀ ex v, (falsyOpt ex || nonEmptyJS v) = true →
      (∀ xs ys : List Value, ¬(ex = some (Value.varr xs) ∧ v = Value.varr ys)) →
      smartValueSpec ex v = some v) := by
  refine ⟨fun k v hk => mergeSmart_getVal_mem existing incoming k v hnd hk,
    fun k hk => mergeSmart_getVal_not_mem existing incoming k hk, ?_, ?_, ?_⟩
  · intro ex v h1 h2
    rw [smartValueSpec, if_neg (by simp [h1, h2])]
  · intro xs ys
    have hstep : smartValueSpec (some (Value.varr xs)) (Value.varr ys) =
        some (Value.varr (jsDedup (xs ++ ys))) := by
      rw [smartValueSpec]
      rfl
    rw [hstep, jsDedup_append]
  · intro ex v hcond hnot
    rw [smartValueSpec, if_pos hcond]
    have h2 : (isArrOpt ex && Value.isArr v) = false := by
      rcases ex with _ | w
      · rfl
      · cases w <;> cases v <;> first
          | rfl
          | exact absurd ⟨rfl, rfl⟩ (hnot _ _)
    rw [if_neg (by simp [h2])]

/-- Witness for C3: the smart merge of two concrete two-field records. -/
theorem C3_smart_merge_witness :
    ((recKeys [("cgpa", Value.vnum 2), ("skills", Value.varr [Value.vstr "y"])]).Nodup) ∧
    ((∀ k v, (k, v) ∈ [("cgpa", Value.vnum 2), ("skills", Value.varr [Value.vstr "y"])] →
      getVal (mergeRecords [("cgpa", Value.vnum 1), ("skills", Value.varr [Value.vstr "x"])]
          [("cgpa", Value.vnum 2), ("skills", Value.varr [Value.vstr "y"])] .smart) k =
        smartValueSpec
          (getVal [("cgpa", Value.vnum 1), ("skills", Value.varr [Value.vstr "x"])] k) v) ∧
    (∀ k, k ∉ recKeys [("cgpa", Value.vnum 2), ("skills", Value.varr [Value.vstr "y"])] →
      getVal (mergeRecords [("cgpa", Value.vnum 1), ("skills", Value.varr [Value.vstr "x"])]
          [("cgpa", Value.vnum 2), ("skills", Value.varr [Value.vstr "y"])] .smart) k =
        getVal [("cgpa", Value.vnum 1), ("skills", Value.varr [Value.vstr "x"])] k) ∧
    (∀ ex v, falsyOpt ex = false → nonEmptyJS v = false → smartValueSpec ex v = ex) ∧
    (∀ xs ys : List Value,
      smartValueSpec (some (Value.varr xs)) (Value.varr ys) =
        some (Value.varr (jsDedup xs ++
          jsDedup (ys.filter (fun y => !(xs.any (fun x => jsEq x y))))))) ∧
    (∀ ex v, (falsyOpt ex || nonEmptyJS v) = true →
      (∀ xs ys : List Value, ¬(ex = some (Value.varr xs) ∧ v = Value.varr ys)) →
      smartValueSpec ex v = some v)) :=
  ⟨by decide,
   C3_smart_merge [("cgpa", Value.vnum 1), ("skills", Value.varr [Value.vstr "x"])]
     [("cgpa", Value.vnum 2), ("skills", Value.varr [Value.vstr "y"])] (by decide)⟩

/-- **C9** counterexample.  Merging a record with itself under `smart` is
not the identity: a field holding the array `["a", "a"]` comes back as
`["a"]`, because the array branch rebuilds the value through a `Set` and so
drops duplicate elements. -/
theorem C9_counterexample :
    mergeRecords [("skills", Value.varr [Value.vstr "a", Value.vstr "a"])]
        [("skills", Value.varr [Value.vstr "a", Value.vstr "a"])] .smart =
      [("skills", Value.varr [Value.vstr "a"])] ∧
    mergeRecords [("skills", Value.varr [Value.vstr "a", Value.vstr "a"])]
        [("skills", Value.varr [Value.vstr "a", Value.vstr "a"])] .smart ≠
      [("skills", Value.varr [Value.vstr "a", Value.vstr "a"])] := by
  constructor
  · rfl
  · decide

/-- A single smart step over an entry the record already holds is the
identity, provided any array value is duplicate-free with non-array
elements. -/
theorem smartStep_self (r : RecordV) (k : String) (v : Value)
    (hv : getVal r k = some v)
    (harr : ∀ xs, v = Value.varr xs → xs.Nodup ∧ ∀ e ∈ xs, e.isArr = false) :
    smartStep r (k, v) = r := by
  rw [smartStep]
  have hcond : (falsyOpt (getVal r k) || nonEmptyJS v) = true := by
    rw [hv]
    cases v with
    | vnull => rfl
    | vstr s =>
        by_cases hs : s = ""
        · subst hs
          rfl
        · simp [falsyOpt, nonEmptyJS, Value.truthy, hs]
    | vnum q =>
        by_cases hq : q = 0
        · subst hq
          rfl
        · simp [falsyOpt, nonEmptyJS, Value.truthy, hq]
    | vbool b => cases b <;> rfl
    | varr l => rfl
  rw [if_pos hcond]
  by_cases h2 : (isArrOpt (getVal r k) && Value.isArr v) = true
  · rcases v with _ | _ | _ | _ | xs
    · simp [hv, isArrOpt, Value.isArr] at h2
    · simp [hv, isArrOpt, Value.isArr] at h2
    · simp [hv, isArrOpt, Value.isArr] at h2
    · simp [hv, isArrOpt, Value.isArr] at h2
    · rw [if_pos h2]
      obtain ⟨hnd, hae⟩ := harr xs rfl
      rw [hv]
      show setVal r k (Value.varr (jsDedup (xs ++ xs))) = r
      rw [jsDedup_self_append hnd hae]
      exact setVal_eq_of_getVal hv
  · rw [if_neg h2]
    exact setVal_eq_of_getVal hv

/-- **C9** (amended).  `merge(r, r, smart) = r` holds for records with
duplicate-free keys whose array-valued fields are duplicate-free arrays of
non-array values; in general the smart self-merge deduplicates array fields
(see the counterexample). -/
theorem C9_smart_merge_self (r : RecordV) (hnd : (recKeys r).Nodup)
    (harr : ∀ k xs, (k, Value.varr xs) ∈ r →
      xs.Nodup ∧ ∀ e ∈ xs, e.isArr = false) :
    mergeRecords r r .smart = r := by
  show r.foldl smartStep r = r
  have step : ∀ (l : List (String × Value)), (∀ kv ∈ l, kv ∈ r) →
      l.foldl smartStep r = r := by
    intro l hl
    induction l with
    | nil => rfl
    | cons kv rest ih =>
        rw [List.foldl_cons]
        have hkv := hl kv (List.mem_cons_self _ _)
        have hv : getVal r kv.1 = some kv.2 := getVal_eq_some_of_mem hnd hkv
        have hself : smartStep r kv = r := by
          obtain ⟨k, v⟩ := kv
          exact smartStep_self r k v hv (fun xs hxs => harr k xs (hxs ▸ hkv))
        rw [hself]
        exact ih (fun kv' hkv' => hl kv' (List.mem_cons_of_mem _ hkv'))
  exact step r (fun kv h => h)

/-- Witness for C9: self-merge of a concrete record with a string field and
a duplicate-free skills array. -/
theorem C9_smart_merge_self_witness :
    ((recKeys [("name", Value.vstr "x"),
        ("skills", Value.varr [Value.vstr "a", Value.vstr "b"])]).Nodup ∧
      (∀ k xs, (k, Value.varr xs) ∈
          [("name", Value.vstr "x"), ("skills", Value.varr [Value.vstr "a", Value.vstr "b"])] →
        xs.Nodup ∧ ∀ e ∈ xs, e.isArr = false)) ∧
    mergeRecords
        [("name", Value.vstr "x"), ("skills", Value.varr [Value.vstr "a", Value.vstr "b"])]
        [("name", Value.vstr "x"), ("skills", Value.varr [Value.vstr "a", Value.vstr "b"])]
        .smart =
      [("name", Value.vstr "x"), ("skills", Value.varr [Value.vstr "a", Value.vstr "b"])] :=
  ⟨⟨by decide, by
      intro k xs hmem
      rcases List.mem_cons.mp hmem with h | h2
      · injection h with h1 h2
        cases h2
      · rcases List.mem_cons.mp h2 with h | h3
        · injection h with h1 h2
          injection h2 with h2
          subst h2
          exact ⟨by decide, by decide⟩
        · cases h3⟩,
   C9_smart_merge_self
     [("name", Value.vstr "x"), ("skills", Value.varr [Value.vstr "a", Value.vstr "b"])]
     (by decide)
     (by
      intro k xs hmem
      rcases List.mem_cons.mp hmem with h | h2
      · injection h with h1 h2
        cases h2
      · rcases List.mem_cons.mp h2 with h | h3
        · injection h with h1 h2
          injection h2 with h2
          subst h2
          exact ⟨by decide, by decide⟩
        · cases h3)⟩

/-- **C6** counterexample.  Two records carrying structurally equal arrays
(`["Java"]` on both sides, from distinct parses and hence distinct heap
objects) ARE reported as a conflict: `!==` compares arrays by reference, not
by structural equality, so the claim's "two structurally equal arrays on the
two sides are not reported" fails. -/
theorem C6_counterexample :
    detectConflicts [("skills", Value.varr [Value.vstr "Java"])]
        [("skills", Value.varr [Value.vstr "Java"])] =
      [{ field := "skills", existingValue := Value.varr [Value.vstr "Java"],
         incomingValue := Value.varr [Value.vstr "Java"] }] ∧
    detectConflicts [("skills", Value.varr [Value.vstr "Java"])]
        [("skills", Value.varr [Value.vstr "Java"])] ≠ [] := by
  constructor
  · rfl
  · decide

/-- Membership in the conflict fold: an entry is collected exactly for the
keys whose two values pass the non-emptiness and strict-inequality test. -/
theorem mem_detectConflicts_aux (existing incoming : RecordV) (c : Conflict) :
    ∀ (ks : List String) (acc : List Conflict),
      (c ∈ ks.foldl
        (fun acc k =>
          match getVal existing k, getVal incoming k with
          | some ve, some vi =>
              if nonEmptyJS ve && nonEmptyJS vi && !(jsEq ve vi) then
                acc ++ [{ field := k, existingValue := ve, incomingValue := vi }]
              else acc
          | _, _ => acc) acc ↔
      (c ∈ acc ∨ ∃ k ∈ ks, ∃ ve vi,
        getVal existing k = some ve ∧ getVal incoming k = some vi ∧
        (nonEmptyJS ve && nonEmptyJS vi && !(jsEq ve vi)) = true ∧
        c = { field := k, existingValue := ve, incomingValue := vi })) := by
  intro ks
  induction ks with
  | nil =>
      intro acc
      simp
  | cons k ks ih =>
      intro acc
      rw [List.foldl_cons, ih]
      rcases h1 : getVal existing k with _ | ve
      · simp only [h1]
        constructor
        · rintro (hacc | hrest)
          · exact Or.inl hacc
          · obtain ⟨k', hk', rest⟩ := hrest
            exact Or.inr ⟨k', List.mem_cons_of_mem _ hk', rest⟩
        · rintro (hacc | ⟨k', hk', ve', vi', he', hi', hc', hceq⟩)
          · exact Or.inl hacc
          · rcases List.mem_cons.mp hk' with rfl | hk'
            · rw [h1] at he'
              cases he'
            · exact Or.inr ⟨k', hk', ve', vi', he', hi', hc', hceq⟩
      · rcases h2 : getVal incoming k with _ | vi
        · simp only [h1, h2]
          constructor
          · rintro (hacc | hrest)
            · exact Or.inl hacc
            · obtain ⟨k', hk', rest⟩ := hrest
              exact Or.inr ⟨k', List.mem_cons_of_mem _ hk', rest⟩
          · rintro (hacc | ⟨k', hk', ve', vi', he', hi', hc', hceq⟩)
            · exact Or.inl hacc
            · rcases List.mem_cons.mp hk' with rfl | hk'
              · rw [h2] at hi'
                cases hi'
              · exact Or.inr ⟨k', hk', ve', vi', he', hi', hc', hceq⟩
        · simp only [h1, h2]
          by_cases hcond : (nonEmptyJS ve && nonEmptyJS vi && !(jsEq ve vi)) = true
          · rw [if_pos hcond]
            constructor
            · rintro (hacc | hrest)
              · rcases List.mem_append.mp hacc with hacc | hone
                · exact Or.inl hacc
                · rcases List.mem_singleton.mp hone with rfl
                  exact Or.inr ⟨k, List.mem_cons_self _ _, ve, vi, h1, h2, hcond, rfl⟩
              · obtain ⟨k', hk', rest⟩ := hrest
                exact Or.inr ⟨k', List.mem_cons_of_mem _ hk', rest⟩
            · rintro (hacc | ⟨k', hk', ve', vi', he', hi', hc', hceq⟩)
              · exact Or.inl (List.mem_append.mpr (Or.inl hacc))
              · rcases List.mem_cons.mp hk' with rfl | hk'
                · rw [h1] at he'
                  rw [h2] at hi'
                  cases he'
                  cases hi'
                  subst hceq
                  exact Or.inl (List.mem_append.mpr (Or.inr (List.mem_singleton.mpr rfl)))
                · exact Or.inr ⟨k', hk', ve', vi', he', hi', hc', hceq⟩
          · rw [if_neg hcond]
            constructor
            · rintro (hacc | hrest)
              · exact Or.inl hacc
              · obtain ⟨k', hk', rest⟩ := hrest
                exact Or.inr ⟨k', List.mem_cons_of_mem _ hk', rest⟩
            · rintro (hacc | ⟨k', hk', ve', vi', he', hi', hc', hceq⟩)
              · exact Or.inl hacc
              · rcases List.mem_cons.mp hk' with rfl | hk'
                · rw [h1] at he'
                  rw [h2] at hi'
                  cases he'
                  cases hi'
                  exact absurd hc' hcond
                · exact Or.inr ⟨k', hk', ve', vi', he', hi', hc', hceq⟩

/-- **C6** (amended).  `detectConflicts` flags a conflict exactly for the
fields carrying a non-empty value on both records whose values differ under
JavaScript strict equality — which is structural on primitives but
reference-based on arrays, so array values on the two sides (always distinct
objects here) ALWAYS differ, and structurally equal arrays are reported as
conflicts rather than suppressed. -/
theorem C6_detect_conflicts (existing incoming : RecordV) :
    (∀ (k : String) (ve vi : Value),
      (({ field := k, existingValue := ve, incomingValue := vi } : Conflict) ∈
          detectConflicts existing incoming ↔
        getVal existing k = some ve ∧ getVal incoming k = some vi ∧
          nonEmptyJS ve = true ∧ nonEmptyJS vi = true ∧ jsEq ve vi = false)) ∧
    (∀ l1 l2 : List Value, jsEq (Value.varr l1) (Value.varr l2) = false) := by
  constructor
  · intro k ve vi
    rw [detectConflicts, mem_detectConflicts_aux]
    constructor
    · rintro (habs | ⟨k', _, ve', vi', he', hi', hc', hceq⟩)
      · cases habs
      · have hk : k = k' ∧ ve = ve' ∧ vi = vi' := by
          rw [Conflict.mk.injEq] at hceq
          exact hceq
        obtain ⟨rfl, rfl, rfl⟩ := hk
        refine ⟨he', hi', ?_, ?_, ?_⟩
        · exact (Bool.and_eq_true_iff.mp (Bool.and_eq_true_iff.mp hc').1).1
        · exact (Bool.and_eq_true_iff.mp (Bool.and_eq_true_iff.mp hc').1).2
        · have := (Bool.and_eq_true_iff.mp hc').2
          simpa using this
    · rintro ⟨he, hi, hne, hni, hne2⟩
      refine Or.inr ⟨k, ?_, ve, vi, he, hi, ?_, rfl⟩
      · have : getVal incoming k ≠ none := by
          rw [hi]
          exact Option.some_ne_none _
        have hmem : ¬(k ∉ recKeys incoming) := fun hnot => this (getVal_eq_none_iff.mpr hnot)
        exact not_not.mp hmem
      · simp [hne, hni, hne2]
  · intro l1 l2
    exact jsEq_varr_left l1 (Value.varr l2)

/-- Full characterisation of the transfer loop: starting from any state,
each counter counts its record class, the accumulated errors are those of
the skipped (error-status) records, exactly one audit entry is appended per
record, and the new/updated student lists collect the insert/update
branches in order. -/
theorem transfer_fold_spec (now : String) (emap : StudentMap)
    (records : List ProcessedRecord) : ∀ st : TState,
    (records.foldl (transferStep now emap) st).transferredCount =
        st.transferredCount + records.countP (fun r =>
          !(r.validationStatus == VStatus.error) &&
          (studentMapGet emap (getVal r.mappedData "rollNo")).isNone) ∧
    (records.foldl (transferStep now emap) st).skippedCount =
        st.skippedCount + records.countP (fun r => r.validationStatus == VStatus.error) ∧
    (records.foldl (transferStep now emap) st).duplicateCount =
        st.duplicateCount + records.countP (fun r =>
          !(r.validationStatus == VStatus.error) &&
          (studentMapGet emap (getVal r.mappedData "rollNo")).isSome) ∧
    (records.foldl (transferStep now emap) st).errors =
        st.errors ++ records.flatMap (fun r =>
          if r.validationStatus = VStatus.error then r.errors else []) ∧
    (records.foldl (transferStep now emap) st).audit =
        st.audit ++ records.map (fun r =>
          if r.validationStatus = VStatus.error then
            ({ action := AuditAction.skip, recordId := r.id, changes := [] } : AuditEntry)
          else
            match studentMapGet emap (getVal r.mappedData "rollNo") with
            | some ex =>
                { action := AuditAction.update, recordId := r.id,
                  changes := calculateChanges ex (mergeStudentData now ex r.mappedData) }
            | none => { action := AuditAction.insert, recordId := r.id, changes := [] }) ∧
    (records.foldl (transferStep now emap) st).newStudents =
        st.newStudents ++ records.filterMap (fun r =>
          if r.validationStatus = VStatus.error then none
          else if (studentMapGet emap (getVal r.mappedData "rollNo")).isSome then none
          else some r.mappedData) ∧
    (records.foldl (transferStep now emap) st).updatedStudents =
        st.updatedStudents ++ records.filterMap (fun r =>
          if r.validationStatus = VStatus.error then none
          else (studentMapGet emap (getVal r.mappedData "rollNo")).map
            (fun ex => mergeStudentData now ex r.mappedData)) ∧
    (records.foldl (transferStep now emap) st).warnings =
        st.warnings ++ records.flatMap (fun r =>
          if r.validationStatus = VStatus.error then [] else r.warnings) := by
  induction records with
  | nil =>
      intro st
      simp
  | cons r rs ih =>
      intro st
      rw [List.foldl_cons]
      obtain ⟨iht, ihs, ihd, ihe, iha, ihn, ihu, ihw⟩ := ih (transferStep now emap st r)
      by_cases herr : r.validationStatus = VStatus.error
      · have hstep : transferStep now emap st r =
            { st with
              skippedCount := st.skippedCount + 1,
              errors := st.errors ++ r.errors,
              audit := st.audit ++
                [{ action := AuditAction.skip, recordId := r.id, changes := [] }] } := by
          rw [transferStep, if_pos herr]
        refine ⟨?_, ?_, ?_, ?_, ?_, ?_, ?_, ?_⟩
        · rw [iht, hstep]
          simp [List.countP_cons, herr]
        · rw [ihs, hstep]
          simp only [List.countP_cons, herr]
          simp
          omega
        · rw [ihd, hstep]
          simp [List.countP_cons, herr]
        · rw [ihe, hstep]
          simp [herr, List.append_assoc]
        · rw [iha, hstep]
          simp [herr, List.append_assoc]
        · rw [ihn, hstep]
          simp [herr]
        · rw [ihu, hstep]
          simp [herr]
        · rw [ihw, hstep]
          simp [herr]
      · rcases hget : studentMapGet emap (getVal r.mappedData "rollNo") with _ | ex
        · have hstep : transferStep now emap st r =
              { st with
                newStudents := st.newStudents ++ [r.mappedData],
                transferredCount := st.transferredCount + 1,
                audit := st.audit ++
                  [{ action := AuditAction.insert, recordId := r.id, changes := [] }],
                warnings := st.warnings ++ r.warnings } := by
            rw [transferStep, if_neg herr, hget]
          refine ⟨?_, ?_, ?_, ?_, ?_, ?_, ?_, ?_⟩
          · rw [iht, hstep]
            simp only [List.countP_cons, herr, hget]
            simp [herr]
            omega
          · rw [ihs, hstep]
            simp [List.countP_cons, herr]
          · rw [ihd, hstep]
            simp [List.countP_cons, herr, hget]
          · rw [ihe, hstep]
            simp [herr, List.append_assoc]
          · rw [iha, hstep]
            simp [herr, hget, List.append_assoc]
          · rw [ihn, hstep]
            simp [herr, hget, List.append_assoc]
          · rw [ihu, hstep]
            simp [herr, hget]
          · rw [ihw, hstep]
            simp [herr, List.append_assoc]
        · have hstep : transferStep now emap st r =
              { st with
                updatedStudents := st.updatedStudents ++
                  [mergeStudentData now ex r.mappedData],
                duplicateCount := st.duplicateCount + 1,
                audit := st.audit ++
                  [{ action := AuditAction.update, recordId := r.id,
                     changes := calculateChanges ex (mergeStudentData now ex r.mappedData) }],
                warnings := st.warnings ++ r.warnings } := by
            rw [transferStep, if_neg herr, hget]
          refine ⟨?_, ?_, ?_, ?_, ?_, ?_, ?_, ?_⟩
          · rw [iht, hstep]
            simp [List.countP_cons, herr, hget]
          · rw [ihs, hstep]
            simp [List.countP_cons, herr]
          · rw [ihd, hstep]
            simp only [List.countP_cons, herr, hget]
            simp [herr]
            omega
          · rw [ihe, hstep]
            simp [herr, List.append_assoc]
          · rw [iha, hstep]
            simp [herr, hget, List.append_assoc]
          · rw [ihn, hstep]
            simp [herr, hget]
          · rw [ihu, hstep]
            simp [herr, hget, List.append_assoc]
          · rw [ihw, hstep]
            simp [herr, List.append_assoc]

/-- **C4** (confirmed).  For every batch, the transfer engine skips each
error-status record (counting it in `skippedCount` and appending a `skip`
audit entry), inserts each valid record whose identifier misses the
existing-students map (counting it in `transferredCount`, audit `insert`),
updates each valid record whose identifier hits the map (counting it in
`duplicateCount`, audit `update`), accumulates exactly the errors of the
skipped records, and returns `success = true` iff that accumulated error
list is empty — warnings are collected separately and never affect
`success`.  In particular, ten valid rows plus two critical-error rows
against an empty store give `transferredCount = 10`, `skippedCount = 2`,
`duplicateCount = 0` and `success = false`. -/
theorem C4_transfer_engine (now : String) (records : List ProcessedRecord)
    (existing : List RecordV) :
    (transferDataToStudentTable now [] records existing).result.skippedCount =
        records.countP (fun r => r.validationStatus == VStatus.error) ∧
    (transferDataToStudentTable now [] records existing).result.transferredCount =
        records.countP (fun r =>
          !(r.validationStatus == VStatus.error) &&
          (studentMapGet (buildStudentMap existing) (getVal r.mappedData "rollNo")).isNone) ∧
    (transferDataToStudentTable now [] records existing).result.duplicateCount =
        records.countP (fun r =>
          !(r.validationStatus == VStatus.error) &&
          (studentMapGet (buildStudentMap existing) (getVal r.mappedData "rollNo")).isSome) ∧
    (transferDataToStudentTable now [] records existing).result.errors =
        records.flatMap (fun r =>
          if r.validationStatus = VStatus.error then r.errors else []) ∧
    ((transferDataToStudentTable now [] records existing).result.success = true ↔
        records.flatMap (fun r =>
          if r.validationStatus = VStatus.error then r.errors else []) = []) ∧
    (transferDataToStudentTable now [] records existing).result.warnings =
        records.flatMap (fun r =>
          if r.validationStatus = VStatus.error then [] else r.warnings) ∧
    (transferDataToStudentTable now [] records existing).result.auditTrail =
        records.map (fun r =>
          if r.validationStatus = VStatus.error then
            ({ action := AuditAction.skip, recordId := r.id, changes := [] } : AuditEntry)
          else
            match studentMapGet (buildStudentMap existing) (getVal r.mappedData "rollNo") with
            | some ex =>
                { action := AuditAction.update, recordId := r.id,
                  changes := calculateChanges ex (mergeStudentData now ex r.mappedData) }
            | none => { action := AuditAction.insert, recordId := r.id, changes := [] }) ∧
    (transferDataToStudentTable "t0" [] scenarioBatch []).result.transferredCount = 10 ∧
    (transferDataToStudentTable "t0" [] scenarioBatch []).result.skippedCount = 2 ∧
    (transferDataToStudentTable "t0" [] scenarioBatch []).result.duplicateCount = 0 ∧
    (transferDataToStudentTable "t0" [] scenarioBatch []).result.success = false := by
  obtain ⟨ht, hs, hd, he, ha, hn, hu, hw⟩ :=
    transfer_fold_spec now (buildStudentMap existing) records TState.init
  refine ⟨?_, ?_, ?_, ?_, ?_, ?_, ?_, ?_, ?_, ?_, ?_⟩
  · show (records.foldl (transferStep now (buildStudentMap existing)) TState.init).skippedCount = _
    rw [hs]
    simp [TState.init]
  · show (records.foldl (transferStep now (buildStudentMap existing)) TState.init).transferredCount = _
    rw [ht]
    simp [TState.init]
  · show (records.foldl (transferStep now (buildStudentMap existing)) TState.init).duplicateCount = _
    rw [hd]
    simp [TState.init]
  · show (records.foldl (transferStep now (buildStudentMap existing)) TState.init).errors = _
    rw [he]
    rfl
  · show (records.foldl (transferStep now (buildStudentMap existing)) TState.init).errors.isEmpty = true ↔ _
    rw [he]
    show (List.isEmpty ([] ++ _)) = true ↔ _
    simp [List.isEmpty_iff]
  · show (records.foldl (transferStep now (buildStudentMap existing)) TState.init).warnings = _
    rw [hw]
    rfl
  · show [] ++ (records.foldl (transferStep now (buildStudentMap existing)) TState.init).audit = _
    rw [ha]
    rfl
  · decide
  · decide
  · decide
  · decide

/-- A successful `jsEqKey` comparison forces the keys to be equal (the
converse fails for array keys, which never compare equal). -/
theorem jsEqKey_eq_of_true {x y : Option Value} (h : jsEqKey x y = true) : x = y := by
  match x, y with
  | none, none => rfl
  | some a, some b =>
      have : jsEq a b = true := h
      rcases jsEq_iff.mp this with ⟨rfl, _⟩
      rfl
  | none, some b => cases h
  | some a, none => cases h

/-- A missing student-map entry after one `set`: the probe key matches
neither the inserted key nor any surviving entry. -/
theorem studentMapGet_studentMapSet_none {m : StudentMap} {k key : Option Value}
    {v : RecordV} (h : studentMapGet (studentMapSet m k v) key = none) :
    studentMapGet m key = none ∧ jsEqKey k key = false := by
  induction m with
  | nil =>
      rw [studentMapSet, studentMapGet] at h
      by_cases hk : jsEqKey k key = true
      · rw [if_pos hk] at h
        cases h
      · exact ⟨rfl, Bool.eq_false_iff.mpr hk⟩
  | cons hd tl ih =>
      obtain ⟨k0, v0⟩ := hd
      rw [studentMapSet] at h
      by_cases hk : jsEqKey k0 k = true
      · rw [if_pos hk] at h
        rw [studentMapGet] at h ⊢
        by_cases hk2 : jsEqKey k0 key = true
        · rw [if_pos hk2] at h
          cases h
        · rw [if_neg hk2] at h
          rw [if_neg hk2]
          refine ⟨h, ?_⟩
          have : k0 = k := jsEqKey_eq_of_true hk
          rw [← this]
          exact Bool.eq_false_iff.mpr hk2
      · rw [if_neg hk] at h
        rw [studentMapGet] at h ⊢
        by_cases hk2 : jsEqKey k0 key = true
        · rw [if_pos hk2] at h
          cases h
        · rw [if_neg hk2] at h
          rw [if_neg hk2]
          exact ih h

/-- If the probe key misses the map built by folding `set`s, it already
missed the seed map. -/
theorem studentMapGet_foldl_none {key : Option Value} :
    ∀ (l : List RecordV) (m : StudentMap),
      studentMapGet (l.foldl (fun m s => studentMapSet m (getVal s "rollNo") s) m) key = none →
      studentMapGet m key = none := by
  intro l
  induction l with
  | nil => intro m h; exact h
  | cons t ts iht =>
      intro m h
      rw [List.foldl_cons] at h
      exact (studentMapGet_studentMapSet_none
        (iht (studentMapSet m (getVal t "rollNo") t) h)).1

/-- A key missing from the built student map matches no existing student's
`rollNo`. -/
theorem buildStudentMap_get_none {existingStudents : List RecordV} {key : Option Value}
    (h : studentMapGet (buildStudentMap existingStudents) key = none) :
    ∀ s ∈ existingStudents, jsEqKey (getVal s "rollNo") key = false := by
  have main : ∀ (l : List RecordV) (m : StudentMap),
      studentMapGet (l.foldl (fun m s => studentMapSet m (getVal s "rollNo") s) m) key = none →
      ∀ s ∈ l, jsEqKey (getVal s "rollNo") key = false := by
    intro l
    induction l with
    | nil => intro m _ s hs; cases hs
    | cons s0 rest ih =>
        intro m h s hs
        rw [List.foldl_cons] at h
        rcases List.mem_cons.mp hs with rfl | hs
        · have h0 := studentMapGet_foldl_none rest _ h
          exact (studentMapGet_studentMapSet_none h0).2
        · exact ih _ h s hs
  exact main existingStudents [] h

/-- The transfer-time merge keeps the incoming record's (non-empty, string)
roll number. -/
theorem mergeStudentData_getVal_rollNo (now : String) (ex inc : RecordV) (s : String)
    (hs : getVal inc "rollNo" = some (Value.vstr s)) (hne : s ≠ "") :
    getVal (mergeStudentData now ex inc) "rollNo" = some (Value.vstr s) := by
  show getVal (setVal ((recKeys inc).foldl
      (fun m k =>
        match getVal inc k with
        | none => m
        | some v =>
            if nonEmptyJS v then
              if v.isArr && isArrOpt (getVal m k) then
                setVal m k (Value.varr (jsDedup (elemsOrNil (getVal m k) ++ elemsOrNil (some v))))
              else setVal m k v
            else m)
      ex) "updatedAt" (Value.vstr now)) "rollNo" = some (Value.vstr s)
  rw [getVal_setVal_ne _ (by decide)]
  have hstep_ne : ∀ (m : RecordV) (k : String), k ≠ "rollNo" →
      getVal ((fun (m : RecordV) (k : String) =>
        match getVal inc k with
        | none => m
        | some v =>
            if nonEmptyJS v then
              if v.isArr && isArrOpt (getVal m k) then
                setVal m k (Value.varr (jsDedup (elemsOrNil (getVal m k) ++ elemsOrNil (some v))))
              else setVal m k v
            else m) m k) "rollNo" = getVal m "rollNo" := by
    intro m k hk
    rcases heq : getVal inc k with _ | v
    · simp only [heq]
    · simp only [heq]
      by_cases h1 : nonEmptyJS v = true
      · rw [if_pos h1]
        by_cases h2 : (v.isArr && isArrOpt (getVal m k)) = true
        · rw [if_pos h2, getVal_setVal_ne _ hk]
        · rw [if_neg h2, getVal_setVal_ne _ hk]
      · rw [if_neg h1]
  have hstep_roll : ∀ (m : RecordV),
      getVal ((fun (m : RecordV) (k : String) =>
        match getVal inc k with
        | none => m
        | some v =>
            if nonEmptyJS v then
              if v.isArr && isArrOpt (getVal m k) then
                setVal m k (Value.varr (jsDedup (elemsOrNil (getVal m k) ++ elemsOrNil (some v))))
              else setVal m k v
            else m) m "rollNo") "rollNo" = some (Value.vstr s) := by
    intro m
    simp only [hs]
    have h1 : nonEmptyJS (Value.vstr s) = true := by
      simp [nonEmptyJS, hne]
    rw [if_pos h1]
    have h2 : ((Value.vstr s).isArr && isArrOpt (getVal m "rollNo")) = false := by
      simp [Value.isArr]
    rw [if_neg (by simp [h2]), getVal_setVal_self]
  have main : ∀ (ks : List String) (m : RecordV),
      ("rollNo" ∈ ks ∨ getVal m "rollNo" = some (Value.vstr s)) →
      getVal (ks.foldl
        (fun (m : RecordV) (k : String) =>
          match getVal inc k with
          | none => m
          | some v =>
              if nonEmptyJS v then
                if v.isArr && isArrOpt (getVal m k) then
                  setVal m k (Value.varr (jsDedup (elemsOrNil (getVal m k) ++ elemsOrNil (some v))))
                else setVal m k v
              else m)
        m) "rollNo" = some (Value.vstr s) := by
    intro ks
    induction ks with
    | nil =>
        intro m h
        rcases h with h | h
        · cases h
        · exact h
    | cons k rest ih =>
        intro m h
        rw [List.foldl_cons]
        by_cases hk : k = "rollNo"
        · subst hk
          exact ih _ (Or.inr (hstep_roll m))
        · rcases h with h | h
          · rcases List.mem_cons.mp h with h' | h'
            · exact absurd h'.symm hk
            · exact ih _ (Or.inl h')
          · refine ih _ (Or.inr ?_)
            rw [hstep_ne m k hk]
            exact h
  apply main
  left
  have hne2 : getVal inc "rollNo" ≠ none := by
    rw [hs]
    exact Option.some_ne_none _
  by_cases hmem : "rollNo" ∈ recKeys inc
  · exact hmem
  · exact absurd (getVal_eq_none_iff.mpr hmem) hne2

/-- **C5** counterexample.  `transferDataToStudentTable` performs no
within-batch uniqueness check of its own and looks records up in a map built
once from the existing store, so a batch holding two valid records with the
same fresh roll number inserts both: the computed final union then carries
two records with identifier `"CS001"` even though the (empty) existing store
trivially has distinct identifiers.  (The claim's "resulting collection
returned" also does not exist as such: the source computes the union into a
local `allStudents` constant, lines 508-512, and drops it.) -/
theorem C5_counterexample :
    ¬ (((transferDataToStudentTable "t0" []
        [{ id := "r1", originalData := [], mappedData := [("rollNo", Value.vstr "CS001")],
           validationStatus := VStatus.valid, errors := [], warnings := [] },
         { id := "r2", originalData := [], mappedData := [("rollNo", Value.vstr "CS001")],
           validationStatus := VStatus.valid, errors := [], warnings := [] }]
        []).allStudents.map (fun s => getVal s "rollNo")).Nodup) := by
  decide

/-- **C5** (amended).  If every record of the existing store carries a
string `rollNo` and those are pairwise distinct, and the batch's non-error
records carry pairwise-distinct non-empty string roll numbers (the
guarantee the within-batch uniqueness validation provides), then the
`allStudents` union computed by `transferDataToStudentTable` (computed into
a local constant and not returned by the source) contains no two records
with the same `rollNo` value. -/
theorem C5_transfer_unique_identifiers (now : String) (records : List ProcessedRecord)
    (existingStudents : List RecordV)
    (hex : ∀ s ∈ existingStudents, ∃ x, getVal s "rollNo" = some (Value.vstr x))
    (hexnd : (existingStudents.map (fun s => getVal s "rollNo")).Nodup)
    (hbatch : ∀ r ∈ records, r.validationStatus ≠ VStatus.error →
      ∃ x, getVal r.mappedData "rollNo" = some (Value.vstr x) ∧ x ≠ "")
    (hbnd : ((records.filter (fun r => !(r.validationStatus == VStatus.error))).map
      (fun r => getVal r.mappedData "rollNo")).Nodup) :
    ((transferDataToStudentTable now [] records existingStudents).allStudents.map
      (fun s => getVal s "rollNo")).Nodup := by
  obtain ⟨ht, hs, hd, he, ha, hn, hu, hw⟩ :=
    transfer_fold_spec now (buildStudentMap existingStudents) records TState.init
  have hu' : (records.foldl (transferStep now (buildStudentMap existingStudents))
      TState.init).updatedStudents =
      records.filterMap (fun r =>
        if r.validationStatus = VStatus.error then none
        else (studentMapGet (buildStudentMap existingStudents)
          (getVal r.mappedData "rollNo")).map
            (fun ex => mergeStudentData now ex r.mappedData)) := by
    rw [hu]
    rfl
  have hn' : (records.foldl (transferStep now (buildStudentMap existingStudents))
      TState.init).newStudents =
      records.filterMap (fun r =>
        if r.validationStatus = VStatus.error then none
        else if (studentMapGet (buildStudentMap existingStudents)
          (getVal r.mappedData "rollNo")).isSome then none
        else some r.mappedData) := by
    rw [hn]
    rfl
  show ((existingStudents.filter (fun s =>
      !((records.foldl (transferStep now (buildStudentMap existingStudents))
          TState.init).updatedStudents.any
        (fun u => jsEqKey (getVal u "rollNo") (getVal s "rollNo")))) ++
      (records.foldl (transferStep now (buildStudentMap existingStudents))
        TState.init).updatedStudents ++
      (records.foldl (transferStep now (buildStudentMap existingStudents))
        TState.init).newStudents).map (fun s => getVal s "rollNo")).Nodup
  rw [hu', hn']
  -- characterisation of the members of the two filterMap lists
  have hupd_char : ∀ u ∈ records.filterMap (fun r =>
      if r.validationStatus = VStatus.error then none
      else (studentMapGet (buildStudentMap existingStudents)
        (getVal r.mappedData "rollNo")).map
          (fun ex => mergeStudentData now ex r.mappedData)),
      ∃ r ∈ records, r.validationStatus ≠ VStatus.error ∧
        getVal u "rollNo" = getVal r.mappedData "rollNo" := by
    intro u hu0
    obtain ⟨r, hr, hfr⟩ := List.mem_filterMap.mp hu0
    by_cases herr : r.validationStatus = VStatus.error
    · rw [if_pos herr] at hfr
      cases hfr
    · rw [if_neg herr] at hfr
      obtain ⟨ex, hex0, hmerge⟩ := Option.map_eq_some'.mp hfr
      obtain ⟨x, hx, hxne⟩ := hbatch r hr herr
      refine ⟨r, hr, herr, ?_⟩
      rw [← hmerge, mergeStudentData_getVal_rollNo now ex r.mappedData x hx hxne, hx]
  have hnew_char : ∀ nrec ∈ records.filterMap (fun r =>
      if r.validationStatus = VStatus.error then none
      else if (studentMapGet (buildStudentMap existingStudents)
        (getVal r.mappedData "rollNo")).isSome then none
      else some r.mappedData),
      ∃ r ∈ records, r.validationStatus ≠ VStatus.error ∧ nrec = r.mappedData ∧
        studentMapGet (buildStudentMap existingStudents)
          (getVal r.mappedData "rollNo") = none := by
    intro nrec hn0
    obtain ⟨r, hr, hfr⟩ := List.mem_filterMap.mp hn0
    by_cases herr : r.validationStatus = VStatus.error
    · rw [if_pos herr] at hfr
      cases hfr
    · rw [if_neg herr] at hfr
      by_cases hsome : (studentMapGet (buildStudentMap existingStudents)
          (getVal r.mappedData "rollNo")).isSome = true
      · rw [if_pos hsome] at hfr
        cases hfr
      · rw [if_neg hsome] at hfr
        cases hfr
        exact ⟨r, hr, herr, rfl, Option.not_isSome_iff_eq_none.mp hsome⟩
  -- the updated/new roll numbers together are a permutation of the
  -- non-error batch roll numbers
  have hperm : ∀ (rs : List ProcessedRecord),
      (∀ r ∈ rs, r.validationStatus ≠ VStatus.error →
        ∃ x, getVal r.mappedData "rollNo" = some (Value.vstr x) ∧ x ≠ "") →
      ((rs.filterMap (fun r =>
          if r.validationStatus = VStatus.error then none
          else (studentMapGet (buildStudentMap existingStudents)
            (getVal r.mappedData "rollNo")).map
              (fun ex => mergeStudentData now ex r.mappedData))).map
          (fun s => getVal s "rollNo") ++
        (rs.filterMap (fun r =>
          if r.validationStatus = VStatus.error then none
          else if (studentMapGet (buildStudentMap existingStudents)
            (getVal r.mappedData "rollNo")).isSome then none
          else some r.mappedData)).map (fun s => getVal s "rollNo")).Perm
        ((rs.filter (fun r => !(r.validationStatus == VStatus.error))).map
          (fun r => getVal r.mappedData "rollNo")) := by
    intro rs
    induction rs with
    | nil => intro _; rfl
    | cons r rest ih =>
        intro hb
        have ihrest := ih (fun r' hr' => hb r' (List.mem_cons_of_mem _ hr'))
        by_cases herr : r.validationStatus = VStatus.error
        · rw [List.filterMap_cons_none (by rw [if_pos herr]),
            List.filterMap_cons_none (by rw [if_pos herr]),
            List.filter_cons_of_neg (by simp [herr])]
          exact ihrest
        · rcases hget : studentMapGet (buildStudentMap existingStudents)
              (getVal r.mappedData "rollNo") with _ | ex
          · rw [List.filterMap_cons_none (by rw [if_neg herr, hget]; rfl),
              List.filterMap_cons_some (by rw [if_neg herr, hget]; rfl),
              List.filter_cons_of_pos (by simp [herr])]
            rw [List.map_cons, List.map_cons]
            exact List.perm_middle.trans (List.Perm.cons _ ihrest)
          · rw [List.filterMap_cons_some (by rw [if_neg herr, hget]; rfl),
              List.filterMap_cons_none (by rw [if_neg herr, hget]; rfl),
              List.filter_cons_of_pos (by simp [herr])]
            rw [List.map_cons, List.map_cons, List.cons_append]
            obtain ⟨x, hx, hxne⟩ := hb r (List.mem_cons_self _ _) herr
            rw [mergeStudentData_getVal_rollNo now ex r.mappedData x hx hxne, ← hx]
            exact List.Perm.cons _ ihrest
  have hperm0 := hperm records hbatch
  -- assemble the three chunks
  rw [List.append_assoc, List.map_append]
  apply List.Nodup.append
  · -- the surviving existing records keep distinct roll numbers
    apply List.Nodup.sublist _ hexnd
    exact List.Sublist.map _ (List.filter_sublist _)
  · -- updated ++ new roll numbers: permutation of the distinct batch ones
    rw [List.map_append]
    exact hperm0.nodup_iff.mpr hbnd
  · -- disjointness of surviving existing vs updated/new
    intro a hamem hamem2
    obtain ⟨sr, hsr, hasr⟩ := List.mem_map.mp hamem
    have hsp := List.of_mem_filter hsr
    have hsmem := List.mem_of_mem_filter hsr
    obtain ⟨xs, hxs⟩ := hex sr hsmem
    rw [List.map_append] at hamem2
    rcases List.mem_append.mp hamem2 with hainupd | hainnew
    · obtain ⟨u, hu0, hau⟩ := List.mem_map.mp hainupd
      obtain ⟨r, hr, hrerr, hurn⟩ := hupd_char u hu0
      obtain ⟨x, hx, hxne⟩ := hbatch r hr hrerr
      have hxeq : xs = x := by
        have h0 : getVal sr "rollNo" = getVal u "rollNo" := hasr.trans hau.symm
        rw [hxs, hurn, hx] at h0
        exact Value.vstr.inj (Option.some.inj h0)
      have heq2 : jsEqKey (some (Value.vstr x)) (some (Value.vstr xs)) = true := by
        show jsEq (Value.vstr x) (Value.vstr xs) = true
        apply jsEq_iff.mpr
        exact ⟨by rw [hxeq], rfl⟩
      have h0 : (!((records.filterMap (fun r =>
          if r.validationStatus = VStatus.error then none
          else (studentMapGet (buildStudentMap existingStudents)
            (getVal r.mappedData "rollNo")).map
              (fun ex => mergeStudentData now ex r.mappedData))).any
          (fun u => jsEqKey (getVal u "rollNo") (getVal sr "rollNo")))) = true := hsp
      have h1 : (records.filterMap (fun r =>
          if r.validationStatus = VStatus.error then none
          else (studentMapGet (buildStudentMap existingStudents)
            (getVal r.mappedData "rollNo")).map
              (fun ex => mergeStudentData now ex r.mappedData))).any
          (fun u => jsEqKey (getVal u "rollNo") (getVal sr "rollNo")) = true :=
        List.any_eq_true.mpr ⟨u, hu0, by rw [hurn, hx, hxs]; exact heq2⟩
      rw [h1] at h0
      exact absurd h0 (by decide)
    · obtain ⟨nrec, hn0, han⟩ := List.mem_map.mp hainnew
      obtain ⟨r, hr, hrerr, hnrec, hnone⟩ := hnew_char nrec hn0
      obtain ⟨x, hx, hxne⟩ := hbatch r hr hrerr
      have hxeq : xs = x := by
        have h0 : getVal sr "rollNo" = getVal nrec "rollNo" := hasr.trans han.symm
        rw [hxs, hnrec, hx] at h0
        exact Value.vstr.inj (Option.some.inj h0)
      have hdisj := buildStudentMap_get_none hnone sr hsmem
      rw [hxs, hx] at hdisj
      have heq2 : jsEqKey (some (Value.vstr xs)) (some (Value.vstr x)) = true := by
        show jsEq (Value.vstr xs) (Value.vstr x) = true
        apply jsEq_iff.mpr
        exact ⟨by rw [hxeq], rfl⟩
      rw [heq2] at hdisj
      cases hdisj

/-- Witness for C5: one existing student and one fresh valid record. -/
theorem C5_transfer_unique_identifiers_witness :
    ((∀ s ∈ sampleStore, ∃ x, getVal s "rollNo" = some (Value.vstr x)) ∧
     ((sampleStore.map (fun s => getVal s "rollNo")).Nodup) ∧
     (∀ r ∈ [sampleFreshRecord],
        r.validationStatus ≠ VStatus.error →
        ∃ x, getVal r.mappedData "rollNo" = some (Value.vstr x) ∧ x ≠ "") ∧
     ((([sampleFreshRecord].filter
        (fun r => !(r.validationStatus == VStatus.error))).map
        (fun r => getVal r.mappedData "rollNo")).Nodup)) ∧
    ((transferDataToStudentTable "t0" [] [sampleFreshRecord]
      sampleStore).allStudents.map
        (fun s => getVal s "rollNo")).Nodup :=
  ⟨⟨by
      intro s hs
      rcases List.mem_singleton.mp hs with rfl
      exact ⟨"EX01", rfl⟩,
    by decide,
    by
      intro r hr _
      rcases List.mem_singleton.mp hr with rfl
      exact ⟨"CS001", rfl, by decide⟩,
    by decide⟩,
   C5_transfer_unique_identifiers "t0" _ _
     (by
      intro s hs
      rcases List.mem_singleton.mp hs with rfl
      exact ⟨"EX01", rfl⟩)
     (by decide)
     (by
      intro r hr _
      rcases List.mem_singleton.mp hr with rfl
      exact ⟨"CS001", rfl, by decide⟩)
     (by decide)⟩

/-- One step of the per-field loop only ever appends to the accumulated
error list. -/
theorem processFieldStep_errs (parseDate : String → Option String)
    (lookup : List (String × String)) (existingRollNos : List String) (rowIndex : Nat)
    (st : FState) (a : String × Value) :
    ∃ e0, (processFieldStep parseDate lookup existingRollNos rowIndex st a).errs =
      st.errs ++ e0 := by
  obtain ⟨c, v⟩ := a
  rcases hl : strMapGet lookup c with _ | f0
  · exact ⟨[], by simp [processFieldStep, hl]⟩
  · rcases hc : convertDataType parseDate v f0 with m | cv
    · exact ⟨[{ row := rowIndex + 1, field := f0, value := some v, message := "Data conversion error: " ++ m, severity := Severity.error }], by simp [processFieldStep, hl, hc]⟩
    · by_cases hr : (validateField f0 cv rowIndex st.tracker existingRollNos).1 = true
      · exact ⟨[], by simp [processFieldStep, hl, hc, hr]⟩
      · exact ⟨(validateField f0 cv rowIndex st.tracker existingRollNos).2.1,
          by simp [processFieldStep, hl, hc, hr]⟩

/-- The per-field loop of `validateAndMapData` only ever appends to the
accumulated error list. -/
theorem processFields_errs_append (parseDate : String → Option String)
    (lookup : List (String × String)) (existingRollNos : List String) (rowIndex : Nat) :
    ∀ (l : List (String × Value)) (st : FState),
      ∃ e, (l.foldl (processFieldStep parseDate lookup existingRollNos rowIndex) st).errs =
        st.errs ++ e := by
  intro l
  induction l with
  | nil => intro st; exact ⟨[], (List.append_nil _).symm⟩
  | cons a rest ih =>
      intro st
      obtain ⟨e0, he0⟩ := processFieldStep_errs parseDate lookup existingRollNos rowIndex st a
      obtain ⟨e, he⟩ := ih (processFieldStep parseDate lookup existingRollNos rowIndex st a)
      exact ⟨e0 ++ e, by rw [List.foldl_cons, he, he0, List.append_assoc]⟩

/-- **C7**: when a field's raw value cannot be coerced to the declared type
of its mapped system field, the per-field loop captures the thrown message
as a field-scoped `ValidationError` of severity `error` (not `critical`)
appended to the row's error list, leaves the row state otherwise untouched
(validation of that field halts: nothing is stored or tracked for it), and
continues with the remaining fields of the row from that state; the error
surfaces in the row's `ProcessedRecord.errors`, and no exception escapes —
the whole pipeline is total. -/
theorem C7_conversion_error_capture
    (parseDate : String → Option String) (ids : Nat → String) (now : String)
    (lookup : List (String × String)) (existingRollNos : List String)
    (tracker : UniqueTracker) (rowIndex : Nat)
    (l1 l2 : List (String × Value)) (col : String) (v : Value) (f msg : String)
    (hlook : strMapGet lookup col = some f)
    (hconv : convertDataType parseDate v f = Except.error msg) :
    (∀ st0 : FState,
      (l1 ++ (col, v) :: l2).foldl
          (processFieldStep parseDate lookup existingRollNos rowIndex) st0 =
        l2.foldl (processFieldStep parseDate lookup existingRollNos rowIndex)
          { l1.foldl (processFieldStep parseDate lookup existingRollNos rowIndex) st0 with
            errs := (l1.foldl (processFieldStep parseDate lookup existingRollNos rowIndex) st0).errs ++
              [{ row := rowIndex + 1, field := f, value := some v,
                 message := "Data conversion error: " ++ msg, severity := Severity.error }] }) ∧
    ({ row := rowIndex + 1, field := f, value := some v,
       message := "Data conversion error: " ++ msg,
       severity := Severity.error } : ValidationError) ∈
      (processRow parseDate ids now lookup existingRollNos tracker rowIndex
        (l1 ++ (col, v) :: l2)).1.errors ∧
    Severity.error ≠ Severity.critical := by
  have hstep : ∀ st : FState,
      processFieldStep parseDate lookup existingRollNos rowIndex st (col, v) =
        { st with errs := st.errs ++
            [{ row := rowIndex + 1, field := f, value := some v,
               message := "Data conversion error: " ++ msg, severity := Severity.error }] } := by
    intro st
    simp only [processFieldStep, hlook, hconv]
  have hfold : ∀ st0 : FState,
      (l1 ++ (col, v) :: l2).foldl
          (processFieldStep parseDate lookup existingRollNos rowIndex) st0 =
        l2.foldl (processFieldStep parseDate lookup existingRollNos rowIndex)
          { l1.foldl (processFieldStep parseDate lookup existingRollNos rowIndex) st0 with
            errs := (l1.foldl (processFieldStep parseDate lookup existingRollNos rowIndex) st0).errs ++
              [{ row := rowIndex + 1, field := f, value := some v,
                 message := "Data conversion error: " ++ msg, severity := Severity.error }] } := by
    intro st0
    rw [List.foldl_append, List.foldl_cons, hstep]
  refine ⟨hfold, ?_, by decide⟩
  show ({ row := rowIndex + 1, field := f, value := some v, message := "Data conversion error: " ++ msg, severity := Severity.error } : ValidationError) ∈
    ((l1 ++ (col, v) :: l2).foldl (processFieldStep parseDate lookup existingRollNos rowIndex) { mappedData := [("id", Value.vstr (ids rowIndex)), ("createdAt", Value.vstr now), ("updatedAt", Value.vstr now)], errs := [], warns := [], tracker := tracker }).errs ++
      validateRequiredFields (setDefaultValues ((l1 ++ (col, v) :: l2).foldl (processFieldStep parseDate lookup existingRollNos rowIndex) { mappedData := [("id", Value.vstr (ids rowIndex)), ("createdAt", Value.vstr now), ("updatedAt", Value.vstr now)], errs := [], warns := [], tracker := tracker }).mappedData) rowIndex
  apply List.mem_append_left
  rw [hfold]
  generalize l1.foldl (processFieldStep parseDate lookup existingRollNos rowIndex) { mappedData := [("id", Value.vstr (ids rowIndex)), ("createdAt", Value.vstr now), ("updatedAt", Value.vstr now)], errs := [], warns := [], tracker := tracker } = st1
  obtain ⟨e, he⟩ := processFields_errs_append parseDate lookup existingRollNos rowIndex l2 { st1 with errs := st1.errs ++ [{ row := rowIndex + 1, field := f, value := some v, message := "Data conversion error: " ++ msg, severity := Severity.error }] }
  rw [he]
  simp

/-- Witness for C7: the header `CGPA` is mapped to `cgpa`, a number field,
and the raw value `"abc"` fails `parseFloat`; the conversion error lands in
the row record's error list. -/
theorem C7_conversion_error_capture_witness :
    (strMapGet [("CGPA", "cgpa")] "CGPA" = some "cgpa" ∧
     convertDataType (fun _ => none) (Value.vstr "abc") "cgpa" =
       Except.error "Cannot convert \"abc\" to number") ∧
    ({ row := 1, field := "cgpa", value := some (Value.vstr "abc"),
       message := "Data conversion error: Cannot convert \"abc\" to number",
       severity := Severity.error } : ValidationError) ∈
      (processRow (fun _ => none) (fun _ => "id0") "t0" [("CGPA", "cgpa")] [] [] 0
        [("CGPA", Value.vstr "abc")]).1.errors :=
  ⟨⟨rfl, rfl⟩,
   (C7_conversion_error_capture (fun _ => none) (fun _ => "id0") "t0" [("CGPA", "cgpa")]
      [] [] 0 [] [] "CGPA" (Value.vstr "abc") "cgpa" "Cannot convert \"abc\" to number"
      rfl rfl).2.1⟩

/-- Fold invariant for `validateRequiredFields`: the error for a falsy
required field joins the accumulator as soon as the field is reached, and is
never dropped. -/
theorem mem_vrf_aux (md : RecordV) (ri : Nat) (f : String)
    (hfalsy : falsyOpt (getVal md f) = true) :
    ∀ (l : List String) (acc : List ValidationError),
      (f ∈ l ∨ ({ row := ri + 1, field := f, value := getVal md f, message := f ++ " is required but not mapped or empty", severity := Severity.critical } : ValidationError) ∈ acc) →
      ({ row := ri + 1, field := f, value := getVal md f, message := f ++ " is required but not mapped or empty", severity := Severity.critical } : ValidationError) ∈
        l.foldl (fun errs g => if falsyOpt (getVal md g) then errs ++ [{ row := ri + 1, field := g, value := getVal md g, message := g ++ " is required but not mapped or empty", severity := Severity.critical }] else errs) acc := by
  intro l
  induction l with
  | nil =>
      intro acc h
      rcases h with h | h
      · exact absurd h (List.not_mem_nil _)
      · exact h
  | cons g rest ih =>
      intro acc h
      rw [List.foldl_cons]
      apply ih
      rcases h with h | h
      · rcases List.mem_cons.mp h with rfl | h2
        · right
          rw [if_pos hfalsy]
          exact List.mem_append_right _ (List.mem_singleton_self _)
        · left
          exact h2
      · right
        by_cases hg : falsyOpt (getVal md g) = true
        · rw [if_pos hg]
          exact List.mem_append_left _ h
        · rw [if_neg hg]
          exact h

/-- A required field whose mapped value is falsy contributes its
severity-`critical` error to `validateRequiredFields`. -/
theorem mem_validateRequiredFields (md : RecordV) (ri : Nat) (f : String)
    (hf : f ∈ requiredFieldsList) (hfalsy : falsyOpt (getVal md f) = true) :
    ({ row := ri + 1, field := f, value := getVal md f, message := f ++ " is required but not mapped or empty", severity := Severity.critical } : ValidationError) ∈
      validateRequiredFields md ri :=
  mem_vrf_aux md ri f hfalsy requiredFieldsList [] (Or.inl hf)

/-- The skills re-write touches no key other than `"skills"`. -/
theorem getVal_skillsPost (md1 : RecordV) (f : String) (hneq : "skills" ≠ f) :
    getVal (skillsPost md1) f = getVal md1 f := by
  unfold skillsPost
  rcases hsk : getVal md1 "skills" with _ | v
  · rfl
  · cases v with
    | vstr s =>
        by_cases hs : s ≠ ""
        · show getVal (if s ≠ "" then setVal md1 "skills" (.varr (splitSkills s)) else md1) f = getVal md1 f
          rw [if_pos hs]
          exact getVal_setVal_ne _ hneq _
        · show getVal (if s ≠ "" then setVal md1 "skills" (.varr (splitSkills s)) else md1) f = getVal md1 f
          rw [if_neg hs]
    | vnull => rfl
    | vnum q => rfl
    | vbool b => rfl
    | varr l => rfl

set_option maxHeartbeats 1000000 in
/-- A row whose final mapped value for a required field is falsy gets
`validationStatus = error` and the critical required-field error in its
record error list. -/
theorem processRow_required_falsy
    (parseDate : String → Option String) (ids : Nat → String) (now : String)
    (lookup : List (String × String)) (existingRollNos : List String)
    (tracker : UniqueTracker) (rowIndex : Nat) (row : RecordV) (f : String)
    (hf : f ∈ requiredFieldsList)
    (hfalsy : falsyOpt (getVal (processRow parseDate ids now lookup existingRollNos tracker rowIndex row).1.mappedData f) = true) :
    (processRow parseDate ids now lookup existingRollNos tracker rowIndex row).1.validationStatus = VStatus.error ∧
    ({ row := rowIndex + 1, field := f, value := getVal (processRow parseDate ids now lookup existingRollNos tracker rowIndex row).1.mappedData f, message := f ++ " is required but not mapped or empty", severity := Severity.critical } : ValidationError) ∈
      (processRow parseDate ids now lookup existingRollNos tracker rowIndex row).1.errors := by
  have hneq : "skills" ≠ f := by
    intro h
    rw [← h] at hf
    exact absurd hf (by decide)
  dsimp only [processRow] at hfalsy ⊢
  rw [getVal_skillsPost _ f hneq] at hfalsy
  have hmem1 := mem_validateRequiredFields _ rowIndex f hf hfalsy
  constructor
  · rw [if_pos (List.length_pos.mpr (List.ne_nil_of_mem (List.mem_append_right _ hmem1)))]
  · rw [getVal_skillsPost _ f hneq]
    exact List.mem_append_right _ hmem1

/-- **C8**: a row in which a required field is still absent after mapping
and default injection yields a `ProcessedRecord` with
`validationStatus = error` whose error list holds the severity-`critical`
error naming that field. -/
theorem C8_required_field_missing
    (parseDate : String → Option String) (ids : Nat → String) (now : String)
    (lookup : List (String × String)) (existingRollNos : List String)
    (tracker : UniqueTracker) (rowIndex : Nat) (row : RecordV) (f : String)
    (hf : f ∈ requiredFieldsList)
    (hnone : getVal (processRow parseDate ids now lookup existingRollNos tracker rowIndex row).1.mappedData f = none) :
    (processRow parseDate ids now lookup existingRollNos tracker rowIndex row).1.validationStatus = VStatus.error ∧
    ({ row := rowIndex + 1, field := f, value := none, message := f ++ " is required but not mapped or empty", severity := Severity.critical } : ValidationError) ∈
      (processRow parseDate ids now lookup existingRollNos tracker rowIndex row).1.errors := by
  have hfalsy : falsyOpt (getVal (processRow parseDate ids now lookup existingRollNos tracker rowIndex row).1.mappedData f) = true := by
    rw [hnone]
    rfl
  obtain ⟨h1, h2⟩ := processRow_required_falsy parseDate ids now lookup existingRollNos
    tracker rowIndex row f hf hfalsy
  rw [hnone] at h2
  exact ⟨h1, h2⟩

/-- Witness for C8: an empty input row maps nothing, so `rollNo` is missing
and the row is rejected with the critical required-field error. -/
theorem C8_required_field_missing_witness :
    ("rollNo" ∈ requiredFieldsList ∧
     getVal (processRow (fun _ => none) (fun _ => "id0") "t0" [] [] [] 0 []).1.mappedData "rollNo" = none) ∧
    ((processRow (fun _ => none) (fun _ => "id0") "t0" [] [] [] 0 []).1.validationStatus = VStatus.error ∧
     ({ row := 1, field := "rollNo", value := none, message := "rollNo is required but not mapped or empty", severity := Severity.critical } : ValidationError) ∈
       (processRow (fun _ => none) (fun _ => "id0") "t0" [] [] [] 0 []).1.errors) :=
  ⟨⟨by decide, by decide⟩,
   C8_required_field_missing (fun _ => none) (fun _ => "id0") "t0" [] [] [] 0 [] "rollNo"
     (by decide) (by decide)⟩

/-- **C10**: the required-field check tests JavaScript falsiness, not
absence: a row whose required field holds a present but falsy mapped value
(such as `cgpa` coerced to the in-range number `0`) is still rejected with
`validationStatus = error` and the severity-`critical` "is required" error
for that field. -/
theorem C10_falsy_required_value
    (parseDate : String → Option String) (ids : Nat → String) (now : String)
    (lookup : List (String × String)) (existingRollNos : List String)
    (tracker : UniqueTracker) (rowIndex : Nat) (row : RecordV) (f : String) (v : Value)
    (hf : f ∈ requiredFieldsList)
    (hv : getVal (processRow parseDate ids now lookup existingRollNos tracker rowIndex row).1.mappedData f = some v)
    (htr : v.truthy = false) :
    (processRow parseDate ids now lookup existingRollNos tracker rowIndex row).1.validationStatus = VStatus.error ∧
    ({ row := rowIndex + 1, field := f, value := some v, message := f ++ " is required but not mapped or empty", severity := Severity.critical } : ValidationError) ∈
      (processRow parseDate ids now lookup existingRollNos tracker rowIndex row).1.errors := by
  have hfalsy : falsyOpt (getVal (processRow parseDate ids now lookup existingRollNos tracker rowIndex row).1.mappedData f) = true := by
    rw [hv]
    show (! v.truthy) = true
    rw [htr]
    rfl
  obtain ⟨h1, h2⟩ := processRow_required_falsy parseDate ids now lookup existingRollNos
    tracker rowIndex row f hf hfalsy
  rw [hv] at h2
  exact ⟨h1, h2⟩

/-- Witness for C10: the header `CGPA` maps to `cgpa` and the raw value `0`
coerces to the number `0`, which passes the field validation (it is inside
the allowed range 0–10) yet is falsy, so the row still fails as
"cgpa is required but not mapped or empty". -/
theorem C10_falsy_required_value_witness :
    ("cgpa" ∈ requiredFieldsList ∧
     getVal (processRow (fun _ => none) (fun _ => "id0") "t0" [("CGPA", "cgpa")] [] [] 0
       [("CGPA", Value.vnum 0)]).1.mappedData "cgpa" = some (Value.vnum 0) ∧
     (Value.vnum 0).truthy = false) ∧
    ((processRow (fun _ => none) (fun _ => "id0") "t0" [("CGPA", "cgpa")] [] [] 0
        [("CGPA", Value.vnum 0)]).1.validationStatus = VStatus.error ∧
     ({ row := 1, field := "cgpa", value := some (Value.vnum 0), message := "cgpa is required but not mapped or empty", severity := Severity.critical } : ValidationError) ∈
       (processRow (fun _ => none) (fun _ => "id0") "t0" [("CGPA", "cgpa")] [] [] 0
         [("CGPA", Value.vnum 0)]).1.errors) :=
  ⟨⟨by decide, by decide, by decide⟩,
   C10_falsy_required_value (fun _ => none) (fun _ => "id0") "t0" [("CGPA", "cgpa")] [] [] 0
     [("CGPA", Value.vnum 0)] "cgpa" (Value.vnum 0)
     (by decide) (by decide) (by decide)⟩

end TPPortal
